import Mathlib

/-!
Verification development for the GEO-Analyzer discovery-and-analysis pipeline
(`src/server/index.js`).  The pure computations of the server (heading-order
detection, robots.txt parsing, scoring, sitemap expansion, the lightweight page
analyzer, the BFS crawl frontier and the job runner) are embedded as Lean
functions.  External collaborators (the HTTP client, the headless browser, the
cheerio DOM engine, the XML parser, `JSON.parse` and `new URL`) are modelled as
oracles supplied through environment records, exactly at the boundaries where
the JavaScript code calls into them.
-/

namespace GeoAnalyse

/-!
Strings are manipulated through character-list primitives defined by structural
recursion, so that every definition evaluates inside the kernel (the core
`String` position-based loops do not reduce there).
-/

/-- Character-list prefix test. -/
def isPrefixCh : List Char → List Char → Bool
  | [], _ => true
  | _ :: _, [] => false
  | p :: ps, c :: cs => p == c && isPrefixCh ps cs

/-- Character-list substring occurrence test. -/
def hasSubCh (pat : List Char) : List Char → Bool
  | [] => isPrefixCh pat []
  | c :: t => isPrefixCh pat (c :: t) || hasSubCh pat t

/-- Substring test; models JS regex literal-substring tests and
`String.prototype.includes` (every pattern in this development is non-empty). -/
def containsSub (s pat : String) : Bool :=
  hasSubCh pat.data s.data

/-- `s.startsWith p`. -/
def strStartsWith (s p : String) : Bool :=
  isPrefixCh p.data s.data

/-- `s.endsWith p`. -/
def strEndsWith (s p : String) : Bool :=
  isPrefixCh p.data.reverse s.data.reverse

/-- ASCII lower-casing of one character, as `String.prototype.toLowerCase`
acts on the ASCII range relevant to this code base. -/
def chLower (c : Char) : Char :=
  if 65 ≤ c.toNat ∧ c.toNat ≤ 90 then Char.ofNat (c.toNat + 32) else c

/-- ASCII `toLowerCase`. -/
def strToLower (s : String) : String :=
  ⟨s.data.map chLower⟩

/-- `String.prototype.trim`: strip leading and trailing whitespace. -/
def strTrim (s : String) : String :=
  ⟨((s.data.dropWhile Char.isWhitespace).reverse.dropWhile Char.isWhitespace).reverse⟩

/-- `textLen` from the source: `(s || "").trim().length`. -/
def textLen (s : String) : Nat :=
  (strTrim s).data.length

/-- Worker for `strSplitOn`; the fuel equals the input length, which each step
consumes, so it never runs out. -/
def splitOnGo (pat : List Char) : Nat → List Char → List Char → List (List Char)
  | _, [], acc => [acc.reverse]
  | 0, s, acc => [acc.reverse ++ s]
  | fuel + 1, c :: t, acc =>
    if isPrefixCh pat (c :: t) then
      acc.reverse :: splitOnGo pat fuel (t.drop (pat.length - 1)) []
    else
      splitOnGo pat fuel t (c :: acc)

/-- `s.split(pat)` on a literal separator (leftmost, non-overlapping). -/
def strSplitOn (s pat : String) : List String :=
  if pat.data.isEmpty then [s]
  else (splitOnGo pat.data s.data.length s.data []).map (fun l => ⟨l⟩)

/-- `xs.join(sep)`. -/
def joinSep (sep : String) : List String → String
  | [] => ""
  | [x] => x
  | x :: xs => x ++ sep ++ joinSep sep xs

/-- Worker for `countWords`: counts maximal non-whitespace runs. -/
def countWordsGo : List Char → Bool → Nat
  | [], _ => 0
  | c :: t, inWord =>
    if c.isWhitespace then countWordsGo t false
    else (if inWord then 0 else 1) + countWordsGo t true

/-- Word count of a text node, as computed by
`text.replace(/\s+/g, " ").trim().split(" ").filter(Boolean).length`:
the number of maximal non-whitespace runs. -/
def countWords (s : String) : Nat :=
  countWordsGo s.data false

/-- One insertion into a JS `Set` represented as a first-occurrence list. -/
def setAdd (acc : List String) (x : String) : List String :=
  if x ∈ acc then acc else acc ++ [x]

/-- `new Set(xs)` as an insertion-ordered duplicate-free list
(first occurrence wins, as in JS). -/
def setOf (xs : List String) : List String :=
  xs.foldl setAdd []

/-- A parsed absolute URL as produced by `new URL(...)`; `search` and
`fragment` carry their leading `?` and `#` when non-empty. -/
structure Url where
  protocol : String
  host : String
  path : String
  search : String
  fragment : String
deriving DecidableEq

/-- Serialization of a parsed URL, modelling `URL.prototype.toString`. -/
def urlStr (u : Url) : String :=
  u.protocol ++ "//" ++ u.host ++ u.path ++ u.search ++ u.fragment

/-- The crawl's registrable-domain approximation:
`host.split(".").slice(-2).join(".")` (last two dot-separated labels). -/
def registrableOf (host : String) : String :=
  let parts := strSplitOn host "."
  joinSep "." (parts.drop (parts.length - 2))

/-- Origin of a URL, modelling `normOrigin`: protocol plus host. -/
def urlOrigin (u : Url) : String :=
  u.protocol ++ "//" ++ u.host

/-- The extension alternatives of `ASSET_RE` and `DEFAULT_EXCLUDE`
(`woff2?` contributes both `woff` and `woff2`). -/
def assetExts : List String :=
  ["xml", "jpg", "jpeg", "png", "gif", "webp", "svg", "avif", "pdf", "zip",
   "rar", "7z", "mp4", "webm", "mp3", "wav", "woff", "woff2", "ttf", "ico"]

/-- `ASSET_RE.test(p)`: case-insensitively, some asset extension preceded by a
dot and followed by `?`, `#` or the end of the string. -/
def assetRe (p : String) : Bool :=
  let pl := strToLower p
  assetExts.any (fun e =>
    strEndsWith pl ("." ++ e) || containsSub pl ("." ++ e ++ "?") ||
      containsSub pl ("." ++ e ++ "#"))

/-- The compiled `DEFAULT_EXCLUDE` pattern, applied case-insensitively to the
whole URL string: `/wp-content/`, `/uploads/`, or an asset extension at the end
of the string (optionally followed by a `?query`). -/
def defaultExclude (s : String) : Bool :=
  let sl := strToLower s
  containsSub sl "/wp-content/" || containsSub sl "/uploads/" ||
    assetExts.any (fun e =>
      strEndsWith sl ("." ++ e) || containsSub sl ("." ++ e ++ "?"))

/-- `matchAny(res, s)`: vacuously true on an empty pattern list, otherwise some
compiled pattern matches.  Compiled regexes are modelled as Boolean predicates
on the URL string (invalid patterns are dropped by `compilePatterns` before
this point). -/
def matchAny (res : List (String → Bool)) (s : String) : Bool :=
  res.isEmpty || res.any (fun re => re s)

/-- `matchNone(res, s)`: vacuously true on an empty pattern list, otherwise no
compiled pattern matches. -/
def matchNone (res : List (String → Bool)) (s : String) : Bool :=
  res.isEmpty || !(res.any (fun re => re s))

/-- The issue message pushed by `headingOrderIssues` for one heading jump. -/
def headingJumpMsg (prev cur : Int) (i : Nat) : String :=
  "Sprung von H" ++ toString prev ++ " auf H" ++ toString cur ++
    " (Index " ++ toString i ++ ")"

/-- The scan of `headingOrderIssues` starting at position `i`: for each
adjacent pair `(prev, cur)` of the heading-level sequence, an issue is recorded
iff `cur - prev > 1`. -/
def headingOrderIssuesFrom (i : Nat) : List Int → List String
  | prev :: cur :: rest =>
      (if cur - prev > 1 then [headingJumpMsg prev cur i] else []) ++
        headingOrderIssuesFrom (i + 1) (cur :: rest)
  | _ => []

/-- `headingOrderIssues` over the document-order sequence of heading levels
(`h1..h6` mapped to `1..6`); the loop index starts at 1. -/
def headingOrderIssues (hs : List Int) : List String :=
  headingOrderIssuesFrom 1 hs

/-- The number of adjacent pairs of the heading-level sequence whose level
increases by more than one step (decreases never count). -/
def countJumps : List Int → Nat
  | prev :: cur :: rest => (if cur - prev > 1 then 1 else 0) + countJumps (cur :: rest)
  | _ => 0

/-- Result of `parseRobotsTxt`: the collected `Sitemap:` and `Disallow:`
values, in line order. -/
structure RobotsParsed where
  sitemaps : List String
  disallow : List String
deriving DecidableEq

/-- Split a robots.txt body into lines, modelling `text.split(/\r?\n/)`. -/
def splitLines (text : String) : List String :=
  (strSplitOn text "\n").map
    (fun l => if strEndsWith l "\r" then String.mk l.data.dropLast else l)

/-- `parseRobotsTxt`: per line, trim; skip blank lines and `#` comments; split
on `:`; skip lines with an empty key or no value part; lower-case the trimmed
key; the value is the remaining parts re-joined with `:` and trimmed. -/
def parseRobotsTxt (text : String) : RobotsParsed :=
  (splitLines text).foldl
    (fun acc line =>
      let l := strTrim line
      if l = "" ∨ strStartsWith l "#" then acc
      else
        match strSplitOn l ":" with
        | [] => acc
        | [_] => acc
        | kRaw :: rest =>
          if kRaw = "" then acc
          else
            let k := strToLower (strTrim kRaw)
            let v := strTrim (joinSep ":" rest)
            let acc1 :=
              if k = "sitemap" then { acc with sitemaps := acc.sitemaps ++ [v] } else acc
            if k = "disallow" then { acc1 with disallow := acc1.disallow ++ [v] } else acc1)
    ⟨[], []⟩

/-- The flag record consumed by `scoreFromFlags` (the scoring-relevant
projection of the main page's `flags` object). -/
structure ScoreFlags where
  hasJSONLD : Bool
  hasOrganization : Bool
  hasLocalBusiness : Bool
  hasWebsite : Bool
  hasSearchAction : Bool
  hasBreadcrumb : Bool
  hasFAQ : Bool
  hasArticle : Bool
  hasCanonical : Bool
  indexable : Bool
  robotsTxtFound : Bool
  sitemapFound : Bool
  langSet : Bool
  hOrderOk : Bool
  redirectChain : Nat
  hreflangCount : Nat
  hreflangXDefault : Bool
  h1Count : Nat
  h2Count : Nat
  wordCount : Nat
  goodAltRatio : Bool
  metaDescGood : Bool
  titleGood : Bool
  ogOk : Bool
  twitterOk : Bool
deriving DecidableEq

/-- The score value: clamped total plus the four bucket subtotals. -/
structure ScoreResult where
  total : Int
  structuredData : Int
  technical : Int
  content : Int
  social : Int
deriving DecidableEq

/-- `scoreFromFlags`: fixed point values per flag in four buckets, total
clamped to `[0, 100]` by `Math.max(0, Math.min(100, ...))`. -/
def scoreFromFlags (f : ScoreFlags) : ScoreResult :=
  let sd : Int :=
    (if f.hasJSONLD then 10 else 0) + (if f.hasOrganization then 6 else 0) +
    (if f.hasLocalBusiness then 6 else 0) + (if f.hasWebsite then 6 else 0) +
    (if f.hasSearchAction then 4 else 0) + (if f.hasBreadcrumb then 3 else 0) +
    (if f.hasFAQ then 4 else 0) + (if f.hasArticle then 3 else 0)
  let tech : Int :=
    (if f.hasCanonical then 6 else 0) + (if f.indexable then 12 else 0) +
    (if f.robotsTxtFound then 3 else 0) + (if f.sitemapFound then 3 else 0) +
    (if f.langSet then 3 else 0) + (if f.hOrderOk then 3 else 0) +
    (if f.redirectChain ≤ 1 then 3 else 0) +
    (if 0 < f.hreflangCount ∧ f.hreflangXDefault then 2 else 0)
  let content : Int :=
    (if f.h1Count = 1 then 5 else 0) + (if 1 ≤ f.h2Count then 3 else 0) +
    (if 200 ≤ f.wordCount then 6 else 0) + (if f.goodAltRatio then 4 else 0) +
    (if f.metaDescGood then 5 else 0) + (if f.titleGood then 5 else 0)
  let social : Int :=
    (if f.ogOk then 4 else 0) + (if f.twitterOk then 3 else 0)
  { total := max 0 (min 100 (sd + tech + content + social)),
    structuredData := sd, technical := tech, content := content, social := social }

/-- Every scoring flag at its best value, as enumerated by the spec: all
Boolean flags true, exactly one H1, redirect chain at most 1, at least 200
words, and hreflang present with an x-default entry. -/
def bestScoreFlags (f : ScoreFlags) : Prop :=
  f.hasJSONLD = true ∧ f.hasOrganization = true ∧ f.hasLocalBusiness = true ∧
  f.hasWebsite = true ∧ f.hasSearchAction = true ∧ f.hasBreadcrumb = true ∧
  f.hasFAQ = true ∧ f.hasArticle = true ∧ f.hasCanonical = true ∧
  f.indexable = true ∧ f.robotsTxtFound = true ∧ f.sitemapFound = true ∧
  f.langSet = true ∧ f.hOrderOk = true ∧ f.goodAltRatio = true ∧
  f.metaDescGood = true ∧ f.titleGood = true ∧ f.ogOk = true ∧
  f.twitterOk = true ∧ f.h1Count = 1 ∧ f.redirectChain ≤ 1 ∧
  200 ≤ f.wordCount ∧ 0 < f.hreflangCount ∧ f.hreflangXDefault = true

/-- Every scoring flag at its worst value: all Boolean flags false, H1 count
not 1, no H2, fewer than 200 words, redirect chain longer than 1. -/
def worstScoreFlags (f : ScoreFlags) : Prop :=
  f.hasJSONLD = false ∧ f.hasOrganization = false ∧ f.hasLocalBusiness = false ∧
  f.hasWebsite = false ∧ f.hasSearchAction = false ∧ f.hasBreadcrumb = false ∧
  f.hasFAQ = false ∧ f.hasArticle = false ∧ f.hasCanonical = false ∧
  f.indexable = false ∧ f.robotsTxtFound = false ∧ f.sitemapFound = false ∧
  f.langSet = false ∧ f.hOrderOk = false ∧ f.goodAltRatio = false ∧
  f.metaDescGood = false ∧ f.titleGood = false ∧ f.ogOk = false ∧
  f.twitterOk = false ∧ f.hreflangXDefault = false ∧ f.h1Count ≠ 1 ∧
  2 ≤ f.redirectChain ∧ f.wordCount < 200 ∧ f.h2Count = 0

/-- Helper: the scan position does not influence how many issues the
heading-order scan records. -/
theorem headingOrderIssuesFrom_length (hs : List Int) :
    ∀ i : Nat, (headingOrderIssuesFrom i hs).length = countJumps hs := by
  induction hs with
  | nil => intro i; rfl
  | cons a t ih =>
    intro i
    cases t with
    | nil => rfl
    | cons b r =>
      have hrec := ih (i + 1)
      by_cases h : b - a > 1
      · simp [headingOrderIssuesFrom, countJumps, h, hrec, Nat.add_comm]
      · simp [headingOrderIssuesFrom, countJumps, h, hrec]

/-- C2: `headingOrderIssues` records exactly one issue per adjacent pair of
heading levels that increases by more than one step and never fires on a
decrease.  `[H1,H2,H4]` yields one issue and `[H1,H2,H3]` none, as the claim
states; but `[H2,H1,H3]` yields exactly one issue (for the jump H1 to H3), not
zero: the decrease H2 to H1 contributes nothing, while the following pair
H1 to H3 increases by two and is recorded. -/
theorem headingOrderIssues_counts_jumps :
    (∀ hs : List Int, (headingOrderIssues hs).length = countJumps hs) ∧
    (headingOrderIssues [1, 2, 4]).length = 1 ∧
    (headingOrderIssues [1, 2, 3]).length = 0 ∧
    (headingOrderIssues [2, 1, 3]).length = 1 :=
  ⟨fun hs => headingOrderIssuesFrom_length hs 1, by decide, by decide, by decide⟩

/-- C2 counterexample: the heading-level sequence `[H2,H1,H3]` does not yield
zero issues as claimed; the code records the jump from H1 to H3. -/
theorem heading_decrease_then_jump_counterexample :
    ¬ (headingOrderIssues [2, 1, 3]).length = 0 := by decide

/-- C5: for every flag combination the total score lies in `[0, 100]`; when
every scoring flag takes its best value the total is exactly 100 (the raw
bucket sum 109 or 112 is clamped down to 100), and when every flag takes its
worst value the total is exactly 0. -/
theorem scoreFromFlags_range_and_extremes :
    ∀ f : ScoreFlags,
      (0 ≤ (scoreFromFlags f).total ∧ (scoreFromFlags f).total ≤ 100) ∧
      (bestScoreFlags f → (scoreFromFlags f).total = 100) ∧
      (worstScoreFlags f → (scoreFromFlags f).total = 0) := by
  intro f
  refine ⟨⟨le_max_left _ _, max_le (by norm_num) (min_le_left _ _)⟩, ?_, ?_⟩
  · rintro ⟨h1, h2, h3, h4, h5, h6, h7, h8, h9, h10, h11, h12, h13, h14, h15, h16,
      h17, h18, h19, h20, h21, h22, h23, h24⟩
    by_cases hh2 : 1 ≤ f.h2Count <;>
      simp [scoreFromFlags, h1, h2, h3, h4, h5, h6, h7, h8, h9, h10, h11, h12, h13,
        h14, h15, h16, h17, h18, h19, h20, h21, h22, h23, h24, hh2]
  · rintro ⟨h1, h2, h3, h4, h5, h6, h7, h8, h9, h10, h11, h12, h13, h14, h15, h16,
      h17, h18, h19, h19x, h20, h21, h22, h23⟩
    have hr : ¬ f.redirectChain ≤ 1 := by omega
    have hw : ¬ 200 ≤ f.wordCount := by omega
    simp [scoreFromFlags, h1, h2, h3, h4, h5, h6, h7, h8, h9, h10, h11, h12, h13,
      h14, h15, h16, h17, h18, h19, h19x, h20, h23, hr, hw]

/-- A concrete flag record with every scoring flag at its best value. -/
def bestFlagsExample : ScoreFlags :=
  { hasJSONLD := true, hasOrganization := true, hasLocalBusiness := true,
    hasWebsite := true, hasSearchAction := true, hasBreadcrumb := true,
    hasFAQ := true, hasArticle := true, hasCanonical := true, indexable := true,
    robotsTxtFound := true, sitemapFound := true, langSet := true, hOrderOk := true,
    redirectChain := 0, hreflangCount := 1, hreflangXDefault := true,
    h1Count := 1, h2Count := 1, wordCount := 250, goodAltRatio := true,
    metaDescGood := true, titleGood := true, ogOk := true, twitterOk := true }

/-- A concrete flag record with every scoring flag at its worst value. -/
def worstFlagsExample : ScoreFlags :=
  { hasJSONLD := false, hasOrganization := false, hasLocalBusiness := false,
    hasWebsite := false, hasSearchAction := false, hasBreadcrumb := false,
    hasFAQ := false, hasArticle := false, hasCanonical := false, indexable := false,
    robotsTxtFound := false, sitemapFound := false, langSet := false, hOrderOk := false,
    redirectChain := 3, hreflangCount := 0, hreflangXDefault := false,
    h1Count := 0, h2Count := 0, wordCount := 10, goodAltRatio := false,
    metaDescGood := false, titleGood := false, ogOk := false, twitterOk := false }

/-- Witness for C5 at concrete best and worst flag records. -/
theorem scoreFromFlags_range_and_extremes_witness :
    (scoreFromFlags bestFlagsExample).total = 100 ∧
    (scoreFromFlags worstFlagsExample).total = 0 :=
  ⟨(scoreFromFlags_range_and_extremes bestFlagsExample).2.1 (by
      refine ⟨rfl, rfl, rfl, rfl, rfl, rfl, rfl, rfl, rfl, rfl, rfl, rfl, rfl, rfl,
        rfl, rfl, rfl, rfl, rfl, rfl, ?_, ?_, ?_, rfl⟩ <;> decide),
   (scoreFromFlags_range_and_extremes worstFlagsExample).2.2 (by
      refine ⟨rfl, rfl, rfl, rfl, rfl, rfl, rfl, rfl, rfl, rfl, rfl, rfl, rfl, rfl,
        rfl, rfl, rfl, rfl, rfl, rfl, ?_, ?_, ?_, rfl⟩ <;> decide)⟩

/-- A fetched-and-parsed sitemap document, as seen by `getSitemapDeep` through
the XML parser oracle: a sitemap index (child `loc` values, `none` when a
`<sitemap>` entry has no `loc`), a urlset (entries explained at
`addUrlsetLocs`), or a document with neither key. -/
inductive SmDoc where
  | index (locs : List (Option String))
  | urlset (entries : List (Option (Option Url)))
  | other
deriving DecidableEq

/-- Number of expandable child locations of a sitemap document. -/
def childCount : SmDoc → Nat
  | .index locs => (locs.filterMap id).length
  | _ => 0

/-- The combined fetch+XML-parse oracle of the sitemap resolver: a finite
association list from sitemap URL to parsed document.  A missing key models a
failed fetch (`fetchXml` returning null) or malformed XML (swallowed by the
`catch`). -/
def smLookup (docs : List (String × SmDoc)) (u : String) : Option SmDoc :=
  (docs.find? (fun p => decide (p.1 = u))).map Prod.snd

/-- Mutable state of `getSitemapDeep`: the visited-sitemap set, the discovered
URL set (insertion-ordered, duplicate-free), and — as instrumentation — the
list of sitemap URLs for which `fetchXml` was actually invoked. -/
structure SmState where
  seenSitemaps : List String
  urls : List String
  fetched : List String
deriving DecidableEq

/-- The urlset loop of `expand`.  Entry `none` is a `<url>` with no `loc`
(the `continue` skips the cap check); `some none` is a `loc` on which
`new URL(loc)` throws (the `catch` falls through to the cap check);
`some (some href)` is a parsed `loc`, skipped via `continue` when its pathname
matches `ASSET_RE`, otherwise added to the URL set; after a non-`continue`
iteration the loop breaks once `urls.size >= cap`. -/
def addUrlsetLocs (cap : Nat) : List String → List (Option (Option Url)) → List String
  | urls, [] => urls
  | urls, none :: rest => addUrlsetLocs cap urls rest
  | urls, some none :: rest =>
      if cap ≤ urls.length then urls else addUrlsetLocs cap urls rest
  | urls, some (some href) :: rest =>
      if assetRe href.path then addUrlsetLocs cap urls rest
      else
        let urls' := if urlStr href ∈ urls then urls else urls ++ [urlStr href]
        if cap ≤ urls'.length then urls' else addUrlsetLocs cap urls' rest

/-- The recursive `expand` of `getSitemapDeep`, flattened into a worklist.
Each worklist item replays `expand(smUrl)`: return at once when already seen
or the cap is reached (before fetching); otherwise mark seen, fetch (recorded
in `fetched`), and either recurse into index children (placed in front of the
remaining work, preserving the depth-first order) or collect urlset locations.
The fuel argument only pays for the bounded total number of worklist items;
`smRunFuel` below always suffices. -/
def smRun (docs : List (String × SmDoc)) (cap : Nat) :
    Nat → SmState → List String → Option SmState
  | _, st, [] => some st
  | 0, _, _ :: _ => none
  | fuel + 1, st, u :: rest =>
    if u ∈ st.seenSitemaps ∨ cap ≤ st.urls.length then
      smRun docs cap fuel st rest
    else
      let st1 : SmState :=
        { st with seenSitemaps := st.seenSitemaps ++ [u], fetched := st.fetched ++ [u] }
      match smLookup docs u with
      | none => smRun docs cap fuel st1 rest
      | some .other => smRun docs cap fuel st1 rest
      | some (.index locs) => smRun docs cap fuel st1 (locs.filterMap id ++ rest)
      | some (.urlset entries) =>
          smRun docs cap fuel { st1 with urls := addUrlsetLocs cap st1.urls entries } rest

/-- Total number of index children over all oracle entries; an upper bound on
how many worklist items the expansion can ever enqueue. -/
def totalChildCount (docs : List (String × SmDoc)) : Nat :=
  (docs.map (fun p => childCount p.2)).sum

/-- Fuel that provably suffices for `smRun` on the given candidate list. -/
def smRunFuel (docs : List (String × SmDoc)) (candidates : List String) : Nat :=
  candidates.length + totalChildCount docs + 1

/-- The sitemap candidate list: the `Sitemap:` values of robots.txt, or the
`/sitemap.xml` fallback when robots.txt was unreachable or listed none. -/
def sitemapCandidates (origin : String) (parsed : RobotsParsed) : List String :=
  if parsed.sitemaps.isEmpty then [origin ++ "/sitemap.xml"] else parsed.sitemaps

/-- Output record of `getSitemapDeep`, plus the `fetched` instrumentation. -/
structure SitemapResult where
  robotsTxtFound : Bool
  sitemapFound : Bool
  sitemapCandidates : List String
  urls : List String
  disallow : List String
  broadBlock : Bool
  sitemapListedInRobots : Bool
  fetched : List String
deriving DecidableEq

/-- The `sm` value used by `runJob` when sitemap seeding is disabled
(`{ urls: [], disallow: [], sitemapListedInRobots: false }`; the remaining
fields are absent in JS and read as falsy/empty). -/
def emptySitemapResult : SitemapResult :=
  { robotsTxtFound := false, sitemapFound := false, sitemapCandidates := [],
    urls := [], disallow := [], broadBlock := false,
    sitemapListedInRobots := false, fetched := [] }

/-- `getSitemapDeep`: fetch robots.txt (`robotsResp`; `none` when the fetch
failed or was not ok), parse it, derive candidates, expand them, and assemble
the result.  `broadBlock` is true iff some `Disallow:` value trims to `/`. -/
def getSitemapDeep (docs : List (String × SmDoc)) (robotsResp : Option String)
    (origin : String) (cap : Nat) : Option SitemapResult :=
  let robotsTxt := robotsResp.getD ""
  let parsed := parseRobotsTxt robotsTxt
  let candidates := sitemapCandidates origin parsed
  match smRun docs cap (smRunFuel docs candidates) ⟨[], [], []⟩ candidates with
  | none => none
  | some st =>
    some { robotsTxtFound := decide (robotsTxt ≠ ""),
           sitemapFound := decide (0 < st.urls.length),
           sitemapCandidates := candidates,
           urls := st.urls,
           disallow := parsed.disallow,
           broadBlock := parsed.disallow.any (fun d => decide (strTrim d = "/")),
           sitemapListedInRobots := !parsed.sitemaps.isEmpty,
           fetched := st.fetched }

/-- Remaining expansion potential: total child count of the oracle entries
whose sitemap URL has not yet been visited. -/
def smPotential (docs : List (String × SmDoc)) (seen : List String) : Nat :=
  ((docs.filter (fun p => decide (p.1 ∉ seen))).map (fun p => childCount p.2)).sum

/-- Helper: unfolding the potential over one oracle entry. -/
theorem smPotential_cons (p : String × SmDoc) (ds : List (String × SmDoc))
    (seen : List String) :
    smPotential (p :: ds) seen =
      (if p.1 ∈ seen then 0 else childCount p.2) + smPotential ds seen := by
  by_cases h : p.1 ∈ seen <;> simp [smPotential, List.filter, h]

/-- Helper: with nothing visited, the potential is the total child count. -/
theorem smPotential_nil_seen (docs : List (String × SmDoc)) :
    smPotential docs [] = totalChildCount docs := by
  simp [smPotential, totalChildCount]

/-- Helper: the potential shrinks as the visited set grows. -/
theorem smPotential_mono (docs : List (String × SmDoc)) {seen seen' : List String}
    (h : ∀ x ∈ seen, x ∈ seen') :
    smPotential docs seen' ≤ smPotential docs seen := by
  induction docs with
  | nil => simp [smPotential]
  | cons p ds ih =>
    rw [smPotential_cons, smPotential_cons]
    by_cases h1 : p.1 ∈ seen
    · have h2 : p.1 ∈ seen' := h _ h1
      simpa [h1, h2] using ih
    · by_cases h2 : p.1 ∈ seen'
      · simp only [h1, h2, if_true, if_false]
        omega
      · simp only [h1, h2, if_true, if_false]
        omega

/-- Helper: visiting a sitemap URL that the oracle knows pays for the children
of its document. -/
theorem smPotential_lookup (docs : List (String × SmDoc)) (u : String) (d : SmDoc)
    (seen : List String) (hu : u ∉ seen) (hl : smLookup docs u = some d) :
    childCount d + smPotential docs (seen ++ [u]) ≤ smPotential docs seen := by
  induction docs with
  | nil => simp [smLookup] at hl
  | cons p ds ih =>
    rw [smPotential_cons, smPotential_cons]
    by_cases hpu : p.1 = u
    · have hd : d = p.2 := by
        simp [smLookup, List.find?, hpu] at hl
        exact hl.symm
      have hm1 : p.1 ∈ seen ++ [u] := by simp [hpu]
      have hm2 : p.1 ∉ seen := by rw [hpu]; exact hu
      have hmono : smPotential ds (seen ++ [u]) ≤ smPotential ds seen :=
        smPotential_mono ds (fun x hx => by simp [hx])
      simp only [hm1, if_true, hm2, if_false, hd]
      omega
    · have hbeq : decide (p.1 = u) = false := by simp [hpu]
      have hl' : smLookup ds u = some d := by
        simpa [smLookup, List.find?, hbeq] using hl
      have hih := ih hl'
      by_cases h1 : p.1 ∈ seen
      · have h2 : p.1 ∈ seen ++ [u] := by simp [h1]
        simp only [h1, h2, if_true]
        omega
      · have h2 : p.1 ∉ seen ++ [u] := by simp [h1, hpu]
        simp only [h1, h2, if_false]
        omega

/-- Helper: `smRunFuel`-style fuel suffices — the run never exhausts its fuel
when the fuel covers the worklist plus the remaining potential. -/
theorem smRun_isSome (docs : List (String × SmDoc)) (cap : Nat) :
    ∀ (fuel : Nat) (st : SmState) (wl : List String),
      wl.length + smPotential docs st.seenSitemaps ≤ fuel →
      (smRun docs cap fuel st wl).isSome := by
  intro fuel
  induction fuel with
  | zero =>
    intro st wl h
    cases wl with
    | nil => simp [smRun]
    | cons u rest => simp [List.length] at h
  | succ n ih =>
    intro st wl h
    cases wl with
    | nil => simp [smRun]
    | cons u rest =>
      rw [smRun]
      by_cases hg : u ∈ st.seenSitemaps ∨ cap ≤ st.urls.length
      · simp only [hg, if_true]
        apply ih
        simp only [List.length_cons] at h
        omega
      · simp only [hg, if_false]
        have hu : u ∉ st.seenSitemaps := fun hmem => hg (Or.inl hmem)
        cases hl : smLookup docs u with
        | none =>
          apply ih
          have hmono : smPotential docs (st.seenSitemaps ++ [u]) ≤
              smPotential docs st.seenSitemaps :=
            smPotential_mono docs (fun x hx => by simp [hx])
          simp only [List.length_cons] at h
          try dsimp only
          omega
        | some d =>
          cases d with
          | other =>
            apply ih
            have hmono : smPotential docs (st.seenSitemaps ++ [u]) ≤
                smPotential docs st.seenSitemaps :=
              smPotential_mono docs (fun x hx => by simp [hx])
            simp only [List.length_cons] at h
            try dsimp only
            omega
          | urlset entries =>
            apply ih
            have hmono : smPotential docs (st.seenSitemaps ++ [u]) ≤
                smPotential docs st.seenSitemaps :=
              smPotential_mono docs (fun x hx => by simp [hx])
            simp only [List.length_cons] at h
            try dsimp only
            omega
          | index locs =>
            apply ih
            have hpay := smPotential_lookup docs u (.index locs) st.seenSitemaps hu hl
            simp only [childCount] at hpay
            simp only [List.length_append, List.length_cons] at h ⊢
            try dsimp only
            omega

/-- Helper: the fetch trace only ever grows. -/
theorem smRun_fetched_sub (docs : List (String × SmDoc)) (cap : Nat) :
    ∀ (fuel : Nat) (st : SmState) (wl : List String) (st' : SmState),
      smRun docs cap fuel st wl = some st' →
      ∀ x ∈ st.fetched, x ∈ st'.fetched := by
  intro fuel
  induction fuel with
  | zero =>
    intro st wl st' h x hx
    cases wl with
    | nil => cases h; exact hx
    | cons u rest => exact absurd h (by simp [smRun])
  | succ n ih =>
    intro st wl st' h x hx
    cases wl with
    | nil => cases h; exact hx
    | cons u rest =>
      rw [smRun] at h
      by_cases hg : u ∈ st.seenSitemaps ∨ cap ≤ st.urls.length
      · simp only [hg, if_true] at h
        exact ih st rest st' h x hx
      · simp only [hg, if_false] at h
        cases hl : smLookup docs u with
        | none =>
          rw [hl] at h
          exact ih _ rest st' h x (by simp [hx])
        | some d =>
          rw [hl] at h
          cases d with
          | other => exact ih _ rest st' h x (by simp [hx])
          | index locs => exact ih _ _ st' h x (by simp [hx])
          | urlset entries => exact ih _ rest st' h x (by simp [hx])

/-- Helper: no sitemap URL is ever fetched twice — the fetch trace is
duplicate-free whenever it starts duplicate-free and inside the seen set. -/
theorem smRun_fetched_nodup (docs : List (String × SmDoc)) (cap : Nat) :
    ∀ (fuel : Nat) (st : SmState) (wl : List String) (st' : SmState),
      smRun docs cap fuel st wl = some st' →
      st.fetched.Nodup → (∀ x ∈ st.fetched, x ∈ st.seenSitemaps) →
      st'.fetched.Nodup := by
  intro fuel
  induction fuel with
  | zero =>
    intro st wl st' h hnd _
    cases wl with
    | nil => cases h; exact hnd
    | cons u rest => exact absurd h (by simp [smRun])
  | succ n ih =>
    intro st wl st' h hnd hsub
    cases wl with
    | nil => cases h; exact hnd
    | cons u rest =>
      rw [smRun] at h
      by_cases hg : u ∈ st.seenSitemaps ∨ cap ≤ st.urls.length
      · simp only [hg, if_true] at h
        exact ih st rest st' h hnd hsub
      · simp only [hg, if_false] at h
        have hu : u ∉ st.seenSitemaps := fun hmem => hg (Or.inl hmem)
        have hufetch : u ∉ st.fetched := fun hmem => hu (hsub u hmem)
        have hnd1 : (st.fetched ++ [u]).Nodup := by
          rw [List.nodup_append]
          exact ⟨hnd, List.nodup_singleton u, by
            intro x hx hx1
            rw [List.mem_singleton] at hx1
            exact hufetch (hx1 ▸ hx)⟩
        have hsub1 : ∀ x ∈ st.fetched ++ [u], x ∈ st.seenSitemaps ++ [u] := by
          intro x hx
          rcases List.mem_append.mp hx with hx | hx
          · exact List.mem_append.mpr (Or.inl (hsub x hx))
          · exact List.mem_append.mpr (Or.inr hx)
        cases hl : smLookup docs u with
        | none =>
          rw [hl] at h
          exact ih _ rest st' h hnd1 hsub1
        | some d =>
          rw [hl] at h
          cases d with
          | other => exact ih _ rest st' h hnd1 hsub1
          | index locs => exact ih _ _ st' h hnd1 hsub1
          | urlset entries => exact ih _ rest st' h hnd1 hsub1

/-- Helper: once the discovered-URL count has reached the cap, the expansion
is a no-op — no fetch, no seen-set growth, no new URLs. -/
theorem smRun_capped (docs : List (String × SmDoc)) (cap : Nat) :
    ∀ (fuel : Nat) (st : SmState) (wl : List String),
      cap ≤ st.urls.length → wl.length ≤ fuel →
      smRun docs cap fuel st wl = some st := by
  intro fuel
  induction fuel with
  | zero =>
    intro st wl hcap hlen
    cases wl with
    | nil => rfl
    | cons u rest => simp [List.length] at hlen
  | succ n ih =>
    intro st wl hcap hlen
    cases wl with
    | nil => rfl
    | cons u rest =>
      rw [smRun]
      simp only [Or.inr hcap, if_true]
      exact ih st rest hcap (by simpa [List.length_cons, Nat.succ_le_succ_iff] using hlen)

/-- Helper: the first worklist item is actually fetched when it is unseen and
the cap has not been reached. -/
theorem smRun_head_fetched (docs : List (String × SmDoc)) (cap fuel : Nat)
    (st : SmState) (u : String) (rest : List String) (st' : SmState)
    (h : smRun docs cap (fuel + 1) st (u :: rest) = some st')
    (hu : u ∉ st.seenSitemaps) (hc : st.urls.length < cap) :
    u ∈ st'.fetched := by
  rw [smRun] at h
  have hg : ¬ (u ∈ st.seenSitemaps ∨ cap ≤ st.urls.length) := by
    rintro (hmem | hcap)
    · exact hu hmem
    · omega
  simp only [hg, if_false] at h
  have humem : ∀ st0 : SmState, st0.fetched = st.fetched ++ [u] →
      ∀ wl st1, smRun docs cap fuel st0 wl = some st1 → u ∈ st1.fetched := by
    intro st0 hf wl st1 hrun
    exact smRun_fetched_sub docs cap fuel st0 wl st1 hrun u (by simp [hf])
  cases hl : smLookup docs u with
  | none =>
    rw [hl] at h
    exact humem _ rfl _ _ h
  | some d =>
    rw [hl] at h
    cases d with
    | other => exact humem _ rfl _ _ h
    | index locs => exact humem _ rfl _ _ h
    | urlset entries => exact humem _ rfl _ _ h

/-- C3: for every sitemap oracle (any index tree, cycles such as A to B back
to A included), `getSitemapDeep` completes within its a-priori fuel bound —
i.e. the recursion terminates — and its fetch trace is duplicate-free, so each
sitemap URL is fetched at most once; moreover, once the discovered-URL count
has reached the cap, the expansion performs no further fetch or state change. -/
theorem getSitemapDeep_terminates_fetch_once_cap :
    (∀ (docs : List (String × SmDoc)) (robotsResp : Option String)
        (origin : String) (cap : Nat),
        ∃ r : SitemapResult,
          getSitemapDeep docs robotsResp origin cap = some r ∧ r.fetched.Nodup) ∧
    (∀ (docs : List (String × SmDoc)) (cap fuel : Nat) (st : SmState)
        (wl : List String),
        cap ≤ st.urls.length → wl.length ≤ fuel →
        smRun docs cap fuel st wl = some st) := by
  constructor
  · intro docs robotsResp origin cap
    have hfuel :
        (sitemapCandidates origin (parseRobotsTxt (robotsResp.getD ""))).length +
          smPotential docs (SmState.mk [] [] []).seenSitemaps ≤
        smRunFuel docs (sitemapCandidates origin (parseRobotsTxt (robotsResp.getD ""))) := by
      show _ + smPotential docs [] ≤ _
      rw [smPotential_nil_seen]
      unfold smRunFuel
      omega
    obtain ⟨st, hst⟩ := Option.isSome_iff_exists.mp
      (smRun_isSome docs cap _ ⟨[], [], []⟩
        (sitemapCandidates origin (parseRobotsTxt (robotsResp.getD ""))) hfuel)
    refine ⟨{ robotsTxtFound := decide ((robotsResp.getD "") ≠ ""),
              sitemapFound := decide (0 < st.urls.length),
              sitemapCandidates :=
                sitemapCandidates origin (parseRobotsTxt (robotsResp.getD "")),
              urls := st.urls,
              disallow := (parseRobotsTxt (robotsResp.getD "")).disallow,
              broadBlock :=
                (parseRobotsTxt (robotsResp.getD "")).disallow.any
                  (fun d => decide (strTrim d = "/")),
              sitemapListedInRobots :=
                !(parseRobotsTxt (robotsResp.getD "")).sitemaps.isEmpty,
              fetched := st.fetched }, ?_, ?_⟩
    · unfold getSitemapDeep
      dsimp only
      rw [hst]
    · exact smRun_fetched_nodup docs cap _ _ _ _ hst (by simp) (by simp)
  · intro docs cap fuel st wl hcap hlen
    exact smRun_capped docs cap fuel st wl hcap hlen

/-- Witness for C3: a concrete oracle run that terminates with a
duplicate-free fetch trace, and a concrete capped state on which the expansion
is a no-op. -/
theorem getSitemapDeep_terminates_fetch_once_cap_witness :
    (∃ r : SitemapResult,
        getSitemapDeep [("http://a.b/sitemap.xml", SmDoc.other)]
          (some "Disallow: /x") "http://a.b" 5 = some r ∧ r.fetched.Nodup) ∧
    smRun [] 5 2 ⟨[], ["u1", "u2", "u3", "u4", "u5"], []⟩ ["s"] =
      some ⟨[], ["u1", "u2", "u3", "u4", "u5"], []⟩ :=
  ⟨getSitemapDeep_terminates_fetch_once_cap.1 [("http://a.b/sitemap.xml", SmDoc.other)]
      (some "Disallow: /x") "http://a.b" 5,
   getSitemapDeep_terminates_fetch_once_cap.2 [] 5 2
      ⟨[], ["u1", "u2", "u3", "u4", "u5"], []⟩ ["s"] (by decide) (by decide)⟩

/-- Environment of `crawlInternal`: `parse` models `new URL(s)` on a seed
string (`none` when the constructor throws); `nav` models the per-page link
extraction — the hrefs of a page already resolved against the page URL by
`new URL(href, u)`, with unresolvable hrefs dropped by their `catch`.  A `none`
navigation models the rendered `page.goto`/`$$eval` throwing, or the static
fetch failing or returning a non-HTML content type: in every such case the
page contributes no links. -/
structure CrawlEnv where
  parse : String → Option Url
  nav : String → Option (List Url)

/-- The options of `crawlInternal` that the job runner passes through. -/
structure CrawlOpts where
  maxPages : Nat
  includeParams : Bool
  render : Bool
  keepHashSections : Bool
  seeds : List String
  includePatterns : List (String → Bool)
  excludePatterns : List (String → Bool)

/-- Mutable crawl state.  `out` keeps, next to each output string, the parsed
URL it was serialized from (for seeds: the URL their string parsed to) — the
JS `out` array is exactly `out.map Prod.fst`.  `opened`/`closed` instrument
the short-lived page handles of the rendered mode. -/
structure CrawlState where
  seen : List String
  queue : List String
  out : List (String × Url)
  opened : Nat
  closed : Nat
deriving DecidableEq

/-- The exclude patterns actually applied: `DEFAULT_EXCLUDE` when the caller
passed an empty list. -/
def crawlExcludes (opts : CrawlOpts) : List (String → Bool) :=
  if opts.excludePatterns.isEmpty then [defaultExclude] else opts.excludePatterns

/-- Processing of one extracted absolute link, mirroring the per-href body of
the crawl loop: reject non-http(s) schemes; reject hosts whose last-two-label
suffix differs from the start URL's; strip the query unless `includeParams`
and the fragment unless `keepHashSections`; serialize; reject asset pathnames,
then hrefs failing an include pattern or matching an exclude pattern; finally,
if unseen and the seen-set is below `maxPages * 6`, mark seen, enqueue, and
record in the output.  `normalizeUrl` is the normalization-policy step: strip
the query unless `includeParams`, strip the fragment unless
`keepHashSections`. -/
def normalizeUrl (opts : CrawlOpts) (abs : Url) : Url :=
  let a1 := if opts.includeParams then abs else { abs with search := "" }
  if opts.keepHashSections then a1 else { a1 with fragment := "" }

/-- See `normalizeUrl` above: the per-href body of the crawl loop. -/
def addLink (opts : CrawlOpts) (root : String) (st : CrawlState) (abs : Url) :
    CrawlState :=
  if abs.protocol = "http:" ∨ abs.protocol = "https:" then
    if registrableOf abs.host = root then
      let a2 := normalizeUrl opts abs
      let s := urlStr a2
      if assetRe a2.path then st
      else if matchAny opts.includePatterns s then
        if matchNone (crawlExcludes opts) s then
          if s ∈ st.seen then st
          else if st.seen.length < opts.maxPages * 6 then
            { st with seen := st.seen ++ [s], queue := st.queue ++ [s],
                      out := st.out ++ [(s, a2)] }
          else st
        else st
      else st
    else st
  else st

/-- Fold of `addLink` over all hrefs extracted from one page. -/
def processLinks (opts : CrawlOpts) (root : String) (st : CrawlState)
    (hrefs : List Url) : CrawlState :=
  hrefs.foldl (addLink opts root) st

/-- One dequeued URL.  In rendered mode a fresh page handle is opened first;
when navigation throws (`nav u = none`) the surrounding catch is entered
before `page.close()` runs, so the handle is never closed; on success the
handle is closed right after the hrefs are read, before the link loop.  In
static mode failures and non-HTML responses just contribute no links. -/
def visit (env : CrawlEnv) (opts : CrawlOpts) (root : String) (st : CrawlState)
    (u : String) : CrawlState :=
  if opts.render then
    let st1 := { st with opened := st.opened + 1 }
    match env.nav u with
    | none => st1
    | some hrefs =>
        let st2 := { st1 with closed := st1.closed + 1 }
        processLinks opts root st2 hrefs
  else
    match env.nav u with
    | none => st
    | some hrefs => processLinks opts root st hrefs

/-- The BFS loop `while (q.length && out.length < maxPages)`.  The fuel only
pays for loop iterations; `crawlFuel` below always suffices because every
iteration removes one queue entry and at most `maxPages * 6` entries are ever
enqueued beyond the seeds. -/
def crawlLoop (env : CrawlEnv) (opts : CrawlOpts) (root : String) :
    Nat → CrawlState → CrawlState
  | 0, st => st
  | fuel + 1, st =>
    match st.queue with
    | [] => st
    | u :: rest =>
      if st.out.length < opts.maxPages then
        crawlLoop env opts root fuel (visit env opts root { st with queue := rest } u)
      else st

/-- The seed list: the start URL's serialization first, then every extra seed
string whose `new URL` parse succeeds and whose host shares the start URL's
last-two-label suffix (kept as the original string, as in the JS code). -/
def crawlSeedList (env : CrawlEnv) (start : Url) (opts : CrawlOpts) :
    List (String × Url) :=
  (urlStr start, start) ::
    opts.seeds.filterMap (fun s =>
      match env.parse s with
      | none => none
      | some u =>
        if registrableOf u.host = registrableOf start.host then some (s, u) else none)

/-- Initial crawl state: seen is the deduplicated seed set, queue and output
are the seed list itself. -/
def crawlInit (env : CrawlEnv) (start : Url) (opts : CrawlOpts) : CrawlState :=
  let seedList := crawlSeedList env start opts
  { seen := setOf (seedList.map Prod.fst), queue := seedList.map Prod.fst,
    out := seedList, opened := 0, closed := 0 }

/-- Fuel that provably suffices for the crawl loop. -/
def crawlFuel (env : CrawlEnv) (start : Url) (opts : CrawlOpts) : Nat :=
  (crawlSeedList env start opts).length + opts.maxPages * 6 + 1

/-- The crawl state when the BFS loop exits (just before `browser.close()`). -/
def crawlFinalState (env : CrawlEnv) (start : Url) (opts : CrawlOpts) : CrawlState :=
  crawlLoop env opts (registrableOf start.host) (crawlFuel env start opts)
    (crawlInit env start opts)

/-- `crawlInternal`: the deduplicated output list
(`Array.from(new Set(out))`). -/
def crawlInternal (env : CrawlEnv) (start : Url) (opts : CrawlOpts) : List String :=
  setOf ((crawlFinalState env start opts).out.map Prod.fst)

/-- Helper: normalization never changes the host. -/
theorem normalizeUrl_host (opts : CrawlOpts) (abs : Url) :
    (normalizeUrl opts abs).host = abs.host := by
  unfold normalizeUrl
  by_cases h1 : opts.includeParams = true <;> by_cases h2 : opts.keepHashSections = true <;>
    simp [h1, h2]

/-- Helper: each link either leaves the crawl state unchanged or appends the
normalized URL to seen, queue and output, under the recorded guards. -/
theorem addLink_cases (opts : CrawlOpts) (root : String) (st : CrawlState) (abs : Url) :
    addLink opts root st abs = st ∨
    (registrableOf (normalizeUrl opts abs).host = root ∧
     urlStr (normalizeUrl opts abs) ∉ st.seen ∧
     st.seen.length < opts.maxPages * 6 ∧
     addLink opts root st abs =
       { st with seen := st.seen ++ [urlStr (normalizeUrl opts abs)],
                 queue := st.queue ++ [urlStr (normalizeUrl opts abs)],
                 out := st.out ++ [(urlStr (normalizeUrl opts abs), normalizeUrl opts abs)] }) := by
  unfold addLink
  by_cases h1 : abs.protocol = "http:" ∨ abs.protocol = "https:"
  · simp only [h1, if_true]
    by_cases h2 : registrableOf abs.host = root
    · simp only [h2, if_true]
      by_cases h3 : assetRe (normalizeUrl opts abs).path = true
      · simp [h3]
      · simp only [Bool.not_eq_true] at h3
        simp only [h3, Bool.false_eq_true, if_false]
        by_cases h4 : matchAny opts.includePatterns (urlStr (normalizeUrl opts abs)) = true
        · simp only [h4, if_true]
          by_cases h5 : matchNone (crawlExcludes opts) (urlStr (normalizeUrl opts abs)) = true
          · simp only [h5, if_true]
            by_cases h6 : urlStr (normalizeUrl opts abs) ∈ st.seen
            · simp [h6]
            · rw [if_neg h6]
              by_cases h7 : st.seen.length < opts.maxPages * 6
              · rw [if_pos h7]
                right
                exact ⟨by rw [normalizeUrl_host]; exact h2, h6, h7, rfl⟩
              · rw [if_neg h7]
                left
                rfl
          · simp only [Bool.not_eq_true] at h5
            simp [h5]
        · simp only [Bool.not_eq_true] at h4
          simp [h4]
    · simp [h2]
  · simp [h1]

/-- Helper: the invariant-preservation scheme for the link fold. -/
theorem processLinks_inv (opts : CrawlOpts) (root : String) (P : CrawlState → Prop)
    (hstep : ∀ st abs, P st → P (addLink opts root st abs)) :
    ∀ (hrefs : List Url) (st : CrawlState), P st → P (processLinks opts root st hrefs) := by
  intro hrefs
  induction hrefs with
  | nil => intro st h; exact h
  | cons a t ih => intro st h; exact ih _ (hstep st a h)

/-- Helper: `addLink` never touches the page-handle counters. -/
theorem addLink_handles (opts : CrawlOpts) (root : String) (st : CrawlState) (abs : Url) :
    (addLink opts root st abs).opened = st.opened ∧
    (addLink opts root st abs).closed = st.closed := by
  rcases addLink_cases opts root st abs with h | ⟨_, _, _, h⟩ <;> rw [h] <;> exact ⟨rfl, rfl⟩

/-- Helper: the link fold never touches the page-handle counters. -/
theorem processLinks_handles (opts : CrawlOpts) (root : String) :
    ∀ (hrefs : List Url) (st : CrawlState),
      (processLinks opts root st hrefs).opened = st.opened ∧
      (processLinks opts root st hrefs).closed = st.closed := by
  intro hrefs
  induction hrefs with
  | nil => intro st; exact ⟨rfl, rfl⟩
  | cons a t ih =>
    intro st
    obtain ⟨ho, hc⟩ := ih (addLink opts root st a)
    obtain ⟨ho1, hc1⟩ := addLink_handles opts root st a
    exact ⟨ho.trans ho1, hc.trans hc1⟩

/-- Helper: invariant-preservation scheme for one visited page. -/
theorem visit_inv (env : CrawlEnv) (opts : CrawlOpts) (root : String)
    (P : CrawlState → Prop)
    (hstep : ∀ st abs, P st → P (addLink opts root st abs))
    (hhandles : ∀ (st : CrawlState) (n m : Nat), P st → P { st with opened := n, closed := m }) :
    ∀ (st : CrawlState) (u : String), P st → P (visit env opts root st u) := by
  intro st u h
  unfold visit
  cases hnav : env.nav u with
  | none =>
    by_cases hr : opts.render = true
    · simp only [hr, if_true]
      exact hhandles st (st.opened + 1) st.closed h
    · have hr' : opts.render = false := by revert hr; cases opts.render <;> simp
      simp only [hr', Bool.false_eq_true, if_false]
      exact h
  | some hrefs =>
    by_cases hr : opts.render = true
    · simp only [hr, if_true]
      exact processLinks_inv opts root P hstep hrefs _
        (hhandles st (st.opened + 1) (st.closed + 1) h)
    · have hr' : opts.render = false := by revert hr; cases opts.render <;> simp
      simp only [hr', Bool.false_eq_true, if_false]
      exact processLinks_inv opts root P hstep hrefs st h
  
/-- Helper: invariant-preservation scheme for the whole BFS loop. -/
theorem crawlLoop_inv (env : CrawlEnv) (opts : CrawlOpts) (root : String)
    (P : CrawlState → Prop)
    (hstep : ∀ st abs, P st → P (addLink opts root st abs))
    (hhandles : ∀ (st : CrawlState) (n m : Nat), P st → P { st with opened := n, closed := m })
    (hqueue : ∀ (st : CrawlState) (q : List String), P st → P { st with queue := q }) :
    ∀ (fuel : Nat) (st : CrawlState), P st → P (crawlLoop env opts root fuel st) := by
  intro fuel
  induction fuel with
  | zero => intro st h; exact h
  | succ n ih =>
    intro st h
    rw [crawlLoop]
    cases hq : st.queue with
    | nil => exact h
    | cons u rest =>
      dsimp only
      by_cases hout : st.out.length < opts.maxPages
      · rw [if_pos hout]
        exact ih _ (visit_inv env opts root P hstep hhandles _ u (hqueue st rest h))
      · rw [if_neg hout]
        exact h

/-- Helper: membership after folding JS `Set` insertions. -/
theorem mem_foldl_setAdd (l : List String) :
    ∀ (acc : List String) (x : String), x ∈ l.foldl setAdd acc ↔ x ∈ acc ∨ x ∈ l := by
  induction l with
  | nil => intro acc x; simp
  | cons a t ih =>
    intro acc x
    rw [List.foldl_cons, ih]
    unfold setAdd
    by_cases ha : a ∈ acc
    · simp only [ha, if_true]
      constructor
      · rintro (hx | hx)
        · exact Or.inl hx
        · exact Or.inr (List.mem_cons_of_mem a hx)
      · rintro (hx | hx)
        · exact Or.inl hx
        · rcases List.mem_cons.mp hx with rfl | hx
          · exact Or.inl ha
          · exact Or.inr hx
    · simp only [ha, if_false, List.mem_append, List.mem_singleton, List.mem_cons]
      tauto

/-- Helper: `setOf` preserves membership in both directions. -/
theorem setOf_mem (l : List String) (x : String) : x ∈ setOf l ↔ x ∈ l := by
  unfold setOf
  rw [mem_foldl_setAdd]
  simp

/-- Helper: a JS `Set` insertion keeps the list duplicate-free. -/
theorem setAdd_nodup {acc : List String} (h : acc.Nodup) (x : String) :
    (setAdd acc x).Nodup := by
  unfold setAdd
  by_cases hx : x ∈ acc
  · simpa [hx] using h
  · rw [if_neg hx, List.nodup_append]
    exact ⟨h, List.nodup_singleton x, by
      intro y hy hy1
      rw [List.mem_singleton] at hy1
      exact hx (hy1 ▸ hy)⟩

/-- Helper: `setOf` is duplicate-free. -/
theorem setOf_nodup (l : List String) : (setOf l).Nodup := by
  suffices h : ∀ acc : List String, acc.Nodup → (l.foldl setAdd acc).Nodup by
    exact h [] List.nodup_nil
  induction l with
  | nil => intro acc h; exact h
  | cons a t ih => intro acc h; exact ih _ (setAdd_nodup h a)

/-- The combined crawl invariant used by the frontier claims: every output
pair's string is in the seen set, every output pair's URL shares the start
URL's registrable suffix, and the seen set is bounded by the larger of its
initial size and `maxPages * 6`. -/
def crawlInv (root : String) (bound : Nat) (st : CrawlState) : Prop :=
  (∀ p ∈ st.out, p.1 ∈ st.seen ∧ registrableOf p.2.host = root) ∧
  st.seen.length ≤ bound

/-- Helper: the crawl invariant holds at the initial state. -/
theorem crawlInv_init (env : CrawlEnv) (start : Url) (opts : CrawlOpts) :
    crawlInv (registrableOf start.host)
      (max (crawlInit env start opts).seen.length (opts.maxPages * 6))
      (crawlInit env start opts) := by
  constructor
  · intro p hp
    constructor
    · show p.1 ∈ setOf ((crawlSeedList env start opts).map Prod.fst)
      rw [setOf_mem]
      exact List.mem_map_of_mem Prod.fst hp
    · rcases List.mem_cons.mp hp with rfl | hp
      · rfl
      · rcases List.mem_filterMap.mp hp with ⟨s, _, hf⟩
        rcases hparse : env.parse s with _ | u
        · rw [hparse] at hf; cases hf
        · rw [hparse] at hf
          dsimp only at hf
          by_cases hreg : registrableOf u.host = registrableOf start.host
          · rw [if_pos hreg] at hf
            cases hf
            exact hreg
          · rw [if_neg hreg] at hf; cases hf
  · exact le_max_left _ _

/-- Helper: `addLink` preserves the crawl invariant (for a bound at least
`maxPages * 6`). -/
theorem crawlInv_addLink (opts : CrawlOpts) (root : String) (bound : Nat)
    (hb : opts.maxPages * 6 ≤ bound) :
    ∀ (st : CrawlState) (abs : Url),
      crawlInv root bound st → crawlInv root bound (addLink opts root st abs) := by
  intro st abs ⟨hmem, hlen⟩
  rcases addLink_cases opts root st abs with h | ⟨hreg, _, hlt, h⟩
  · rw [h]; exact ⟨hmem, hlen⟩
  · rw [h]
    constructor
    · intro p hp
      rcases List.mem_append.mp hp with hp | hp
      · exact ⟨List.mem_append.mpr (Or.inl (hmem p hp).1), (hmem p hp).2⟩
      · rw [List.mem_singleton] at hp
        subst hp
        exact ⟨List.mem_append.mpr (Or.inr (List.mem_singleton.mpr rfl)), hreg⟩
    · simp only [List.length_append, List.length_singleton]
      omega

/-- Helper: the crawl invariant holds at the final state. -/
theorem crawlInv_final (env : CrawlEnv) (start : Url) (opts : CrawlOpts) :
    crawlInv (registrableOf start.host)
      (max (crawlInit env start opts).seen.length (opts.maxPages * 6))
      (crawlFinalState env start opts) := by
  unfold crawlFinalState
  exact crawlLoop_inv env opts (registrableOf start.host) _
    (crawlInv_addLink opts (registrableOf start.host) _ (le_max_right _ _))
    (fun st n m h => h) (fun st q h => h) _ _
    (crawlInv_init env start opts)

/-- Helper: with a navigation oracle that never throws, every visit closes the
page handle it opened. -/
theorem visit_balanced (env : CrawlEnv) (opts : CrawlOpts) (root : String)
    (hnav : ∀ u, env.nav u ≠ none) (st : CrawlState) (u : String)
    (h : st.opened = st.closed) :
    (visit env opts root st u).opened = (visit env opts root st u).closed := by
  unfold visit
  cases hn : env.nav u with
  | none => exact absurd hn (hnav u)
  | some hrefs =>
    by_cases hr : opts.render = true
    · simp only [hr, if_true]
      show (processLinks opts root
              { st with opened := st.opened + 1, closed := st.closed + 1 } hrefs).opened =
           (processLinks opts root
              { st with opened := st.opened + 1, closed := st.closed + 1 } hrefs).closed
      have h1 : (processLinks opts root
          { st with opened := st.opened + 1, closed := st.closed + 1 } hrefs).opened =
          st.opened + 1 :=
        (processLinks_handles opts root hrefs _).1
      have h2 : (processLinks opts root
          { st with opened := st.opened + 1, closed := st.closed + 1 } hrefs).closed =
          st.closed + 1 :=
        (processLinks_handles opts root hrefs _).2
      rw [h1, h2, h]
    · have hr' : opts.render = false := by revert hr; cases opts.render <;> simp
      simp only [hr', Bool.false_eq_true, if_false]
      have h1 : (processLinks opts root st hrefs).opened = st.opened :=
        (processLinks_handles opts root hrefs st).1
      have h2 : (processLinks opts root st hrefs).closed = st.closed :=
        (processLinks_handles opts root hrefs st).2
      rw [h1, h2, h]

/-- Helper: the opened/closed balance is a loop invariant when no navigation
throws. -/
theorem crawlLoop_balanced (env : CrawlEnv) (opts : CrawlOpts) (root : String)
    (hnav : ∀ u, env.nav u ≠ none) :
    ∀ (fuel : Nat) (st : CrawlState), st.opened = st.closed →
      (crawlLoop env opts root fuel st).opened =
        (crawlLoop env opts root fuel st).closed := by
  intro fuel
  induction fuel with
  | zero => intro st h; exact h
  | succ n ih =>
    intro st h
    rw [crawlLoop]
    cases hq : st.queue with
    | nil => exact h
    | cons u rest =>
      dsimp only
      by_cases hout : st.out.length < opts.maxPages
      · rw [if_pos hout]
        exact ih _ (visit_balanced env opts root hnav _ u h)
      · rw [if_neg hout]
        exact h

/-- Start URL shared by the concrete crawl scenarios. -/
def exStart : Url := ⟨"http:", "a.b", "/", "", ""⟩

/-- Three same-site links on the start page. -/
def exLinks : List Url :=
  [⟨"http:", "a.b", "/p1", "", ""⟩, ⟨"http:", "a.b", "/p2", "", ""⟩,
   ⟨"http:", "a.b", "/p3", "", ""⟩]

/-- Environment whose start page links to three pages. -/
def fanoutEnv : CrawlEnv :=
  ⟨fun _ => none, fun u => if u = "http://a.b/" then some exLinks else some []⟩

/-- Environment whose pages have no links at all. -/
def quietEnv : CrawlEnv := ⟨fun _ => none, fun _ => some []⟩

/-- Static crawl options with a page budget of 2 and no extra seeds. -/
def capOpts : CrawlOpts := ⟨2, false, false, true, [], [], []⟩

/-- C1 (amended): the deduplicated crawl output and the internal seen-set are
both bounded by the larger of the initial seed-set size and `maxPages * 6` —
not by `maxPages`: inside the processing of a single dequeued page, links are
appended to the output without consulting `maxPages`, which is only checked at
the loop head, and the seed list enters the output unconditionally. -/
theorem crawl_output_and_seen_bounds :
    ∀ (env : CrawlEnv) (start : Url) (opts : CrawlOpts),
      (crawlInternal env start opts).length ≤
        max (crawlInit env start opts).seen.length (opts.maxPages * 6) ∧
      (crawlFinalState env start opts).seen.length ≤
        max (crawlInit env start opts).seen.length (opts.maxPages * 6) := by
  intro env start opts
  obtain ⟨hmem, hlen⟩ := crawlInv_final env start opts
  refine ⟨?_, hlen⟩
  have hsub : crawlInternal env start opts ⊆ (crawlFinalState env start opts).seen := by
    intro x hx
    unfold crawlInternal at hx
    rw [setOf_mem] at hx
    rcases List.mem_map.mp hx with ⟨p, hp, rfl⟩
    exact (hmem p hp).1
  have hnd : (crawlInternal env start opts).Nodup := setOf_nodup _
  exact le_trans (hnd.subperm hsub).length_le hlen

/-- C1 counterexample: with a page budget of 2 and a start page carrying three
same-site links, the crawl output contains four URLs — more than `maxPages`. -/
theorem crawl_output_cap_counterexample :
    ¬ (crawlInternal fanoutEnv exStart capOpts).length ≤ capOpts.maxPages := by decide

/-- C4: every member of the crawl output set is the string of a URL whose
host's last-two-label suffix equals the start URL's — cross-registrable-domain
targets are never present, whether they arrived as extracted hrefs (rejected
by the `reg2 !== registrable` check) or as supplied seed URLs (filtered when
building the seed list). -/
theorem crawl_output_registrable_scoped :
    ∀ (env : CrawlEnv) (start : Url) (opts : CrawlOpts) (s : String),
      s ∈ crawlInternal env start opts →
      ∃ u : Url, (s, u) ∈ (crawlFinalState env start opts).out ∧
        registrableOf u.host = registrableOf start.host := by
  intro env start opts s hs
  unfold crawlInternal at hs
  rw [setOf_mem] at hs
  rcases List.mem_map.mp hs with ⟨p, hp, rfl⟩
  exact ⟨p.2, hp, ((crawlInv_final env start opts).1 p hp).2⟩

/-- Witness for C4: the start URL itself sits in the output with its own
registrable suffix. -/
theorem crawl_output_registrable_scoped_witness :
    ∃ u : Url, ("http://a.b/", u) ∈ (crawlFinalState quietEnv exStart capOpts).out ∧
      registrableOf u.host = registrableOf exStart.host :=
  crawl_output_registrable_scoped quietEnv exStart capOpts "http://a.b/" (by decide)

/-- A seed whose path matches the default exclude pattern (a `.pdf` path). -/
def pdfSeedUrl : Url := ⟨"http:", "a.b", "/doc.pdf", "", ""⟩

/-- Environment that parses the `.pdf` seed and extracts no links. -/
def pdfSeedEnv : CrawlEnv :=
  ⟨fun s => if s = "http://a.b/doc.pdf" then some pdfSeedUrl else none,
   fun _ => some []⟩

/-- Static crawl options carrying the `.pdf` seed and the default excludes. -/
def pdfSeedOpts : CrawlOpts := ⟨2, false, false, true, ["http://a.b/doc.pdf"], [], []⟩

/-- C10: seed URLs are added to the output unconditionally — the only check
they undergo is the registrable-domain filter, never the asset-extension
pattern or the include/exclude lists; concretely, a `.pdf` seed appears in the
crawl output while the very same URL arriving as an extracted link leaves the
crawl state unchanged (`addLink` rejects it through `ASSET_RE` and the default
exclude pattern). -/
theorem crawl_seeds_bypass_filters :
    (∀ (env : CrawlEnv) (start : Url) (opts : CrawlOpts) (s : String) (u : Url),
        s ∈ opts.seeds → env.parse s = some u →
        registrableOf u.host = registrableOf start.host →
        s ∈ crawlInternal env start opts) ∧
    "http://a.b/doc.pdf" ∈ crawlInternal pdfSeedEnv exStart pdfSeedOpts ∧
    (∀ st : CrawlState,
        addLink pdfSeedOpts (registrableOf exStart.host) st pdfSeedUrl = st) := by
  refine ⟨?_, by decide, ?_⟩
  · intro env start opts s u hs hparse hreg
    have hseed : (s, u) ∈ crawlSeedList env start opts := by
      unfold crawlSeedList
      refine List.mem_cons_of_mem _ (List.mem_filterMap.mpr ⟨s, hs, ?_⟩)
      rw [hparse]
      dsimp only
      rw [if_pos hreg]
    have hfin : (s, u) ∈ (crawlFinalState env start opts).out := by
      unfold crawlFinalState
      refine crawlLoop_inv env opts (registrableOf start.host)
        (fun st => (s, u) ∈ st.out) ?_ (fun st n m h => h) (fun st q h => h) _ _ hseed
      intro st abs h
      rcases addLink_cases opts (registrableOf start.host) st abs with he | ⟨_, _, _, he⟩
      · rw [he]; exact h
      · rw [he]; exact List.mem_append.mpr (Or.inl h)
    unfold crawlInternal
    rw [setOf_mem]
    exact List.mem_map.mpr ⟨(s, u), hfin, rfl⟩
  · intro st
    rfl

/-- Witness for C10 at the concrete `.pdf` seed scenario. -/
theorem crawl_seeds_bypass_filters_witness :
    "http://a.b/doc.pdf" ∈ crawlInternal pdfSeedEnv exStart pdfSeedOpts :=
  crawl_seeds_bypass_filters.1 pdfSeedEnv exStart pdfSeedOpts "http://a.b/doc.pdf"
    pdfSeedUrl (by decide) (by decide) (by decide)

/-- Environment where navigating any page throws. -/
def leakEnv : CrawlEnv := ⟨fun _ => none, fun _ => none⟩

/-- Rendered crawl options. -/
def renderOpts : CrawlOpts := ⟨2, false, true, true, [], [], []⟩

/-- C9: on every success path each short-lived page handle is closed (with a
never-throwing navigation oracle the final opened and closed counts agree),
but on the navigation-failure path the handle leaks: the catch skips
`page.close()`, so after crawling a single page whose `goto` throws, one
handle was opened and none was closed — it stays open until the shared
browser is torn down at the end of the crawl. -/
theorem crawl_page_handle_leak :
    (∀ (env : CrawlEnv) (start : Url) (opts : CrawlOpts),
        (∀ u, env.nav u ≠ none) →
        (crawlFinalState env start opts).opened =
          (crawlFinalState env start opts).closed) ∧
    (crawlFinalState leakEnv exStart renderOpts).opened = 1 ∧
    (crawlFinalState leakEnv exStart renderOpts).closed = 0 := by
  refine ⟨?_, by decide, by decide⟩
  intro env start opts hnav
  unfold crawlFinalState
  exact crawlLoop_balanced env opts (registrableOf start.host) hnav _ _ rfl

/-- Witness for C9's success-path half, with a navigation oracle that never
throws. -/
theorem crawl_page_handle_leak_witness :
    (crawlFinalState quietEnv exStart renderOpts).opened =
      (crawlFinalState quietEnv exStart renderOpts).closed :=
  crawl_page_handle_leak.1 quietEnv exStart renderOpts
    (fun u => by simp [quietEnv])

/-- A DOM element as the cheerio queries of this code base observe it: tag
name, attribute list, text content (`$(el).contents().text()` for scripts,
`.text()` otherwise), and whether an ancestor `<label>` exists
(`$el.parents("label").length > 0`). -/
structure El where
  tagName : String
  attrs : List (String × String)
  text : String
  hasLabelParent : Bool
deriving DecidableEq

/-- A loaded cheerio document: a CSS-selector query engine.  `sel` returns
the matched elements in document order, or throws (`Except.error`) on a
selector the CSS engine rejects — which is exactly what cheerio does on a
malformed attribute selector. -/
structure Dom where
  sel : String → Except String (List El)

/-- The selector string at the hreflang query of `lightweightSampleAnalyze`,
verbatim from the source: note the stray quote before the closing bracket
(`[hreflang"]`), which makes the attribute selector malformed. -/
def hreflangSelector : String := "link[rel=\"alternate\"][hreflang\"]"

/-- An HTTP response as `fetch` delivers it to the light analyzer. -/
structure HttpResp where
  status : Nat
  ct : String
  body : String
deriving DecidableEq

/-- A JSON value, for the JSON-LD blocks delivered by the `JSON.parse`
oracle. -/
inductive JVal where
  | null
  | bool (b : Bool)
  | num (n : Int)
  | str (s : String)
  | arr (elems : List JVal)
  | obj (fields : List (String × JVal))

/-- JS truthiness of a JSON value (`if (obj["@type"])`). -/
def jtruthy : JVal → Bool
  | .null => false
  | .bool b => b
  | .num n => decide (n ≠ 0)
  | .str s => decide (s ≠ "")
  | .arr _ => true
  | .obj _ => true

mutual
/-- JS string coercion of a JSON value used as an object key
(`types[t] = ...`); scalar cases are exact, nested arrays join with commas. -/
def jvalKey : JVal → String
  | .null => "null"
  | .bool b => if b then "true" else "false"
  | .num n => toString n
  | .str s => s
  | .arr elems => jvalKeyList elems
  | .obj _ => "[object Object]"

/-- Comma join for array keys. -/
def jvalKeyList : List JVal → String
  | [] => ""
  | [x] => jvalKey x
  | x :: xs => jvalKey x ++ "," ++ jvalKeyList xs
end

/-- First field of a JSON object with the given key (JS property access). -/
def lookupField (fields : List (String × JVal)) (k : String) : Option JVal :=
  (fields.find? (fun p => decide (p.1 = k))).map Prod.snd

/-- The `@type` keys contributed by one JSON object: when the `@type` value
is truthy, each element of an array value (or the single value itself) is
coerced to a key string. -/
def typeKeysOf (fields : List (String × JVal)) : List String :=
  match lookupField fields "@type" with
  | none => []
  | some tv =>
    if jtruthy tv then
      match tv with
      | .arr ts => ts.map jvalKey
      | _ => [jvalKey tv]
    else []

mutual
/-- The recursive `collect` walk of the light analyzer: scalars contribute
nothing; arrays recurse into their elements; objects contribute their own
`@type` keys and then recurse into every property value. -/
def collectTypes : JVal → List String
  | .obj fields => typeKeysOf fields ++ collectTypesFields fields
  | .arr xs => collectTypesList xs
  | _ => []

/-- `collect` over a list of values. -/
def collectTypesList : List JVal → List String
  | [] => []
  | x :: xs => collectTypes x ++ collectTypesList xs

/-- `collect` over the property values of an object. -/
def collectTypesFields : List (String × JVal) → List String
  | [] => []
  | (_, v) :: fs => collectTypes v ++ collectTypesFields fs
end

/-- Environment of the light analyzer: the HTTP fetch (an `Except.error`
models a thrown fetch or body read), the cheerio `load` (total — any string
loads), and `JSON.parse` (an `Except.error` models a parse exception). -/
structure LightEnv where
  fetch : String → Except String HttpResp
  load : String → Dom
  parseJson : String → Except String JVal

/-- Attribute of one element (`$(el).attr(name)`). -/
def attrOf (e : El) (name : String) : Option String :=
  (e.attrs.find? (fun p => decide (p.1 = name))).map Prod.snd

/-- Attribute of the first element of a selection (`$(sel).attr(name)`),
undefined on an empty selection. -/
def attrFirst (els : List El) (name : String) : Option String :=
  match els with
  | [] => none
  | e :: _ => attrOf e name

/-- Heading level from a tag name: `Number(el.tagName[1])` for `h1`..`h6`
(non-digit positions, which the heading selector never produces, default
to 0). -/
def elLevel (e : El) : Int :=
  match e.tagName.data.drop 1 with
  | c :: _ => if c.isDigit then Int.ofNat (c.toNat - 48) else 0
  | [] => 0

/-- `res.ok`: HTTP status in `[200, 300)`. -/
def fetchOk (status : Nat) : Bool :=
  decide (200 ≤ status) && decide (status < 300)

/-- `isHtmlCT`: content type contains `text/html` case-insensitively. -/
def isHtmlCT (ct : String) : Bool :=
  containsSub (strToLower ct) "text/html"

/-- The record returned by `lightweightSampleAnalyze`; fields absent in the
corresponding JS return object keep their default here. -/
structure LightResult where
  url : String
  status : Option Nat := none
  ok : Bool := false
  reason : Option String := none
  ct : Option String := none
  titleLen : Nat := 0
  metaDescLen : Nat := 0
  canonical : Bool := false
  robots : String := ""
  lang : Bool := false
  h1Count : Nat := 0
  h2Count : Nat := 0
  wordCount : Nat := 0
  orderIssues : Nat := 0
  jsonLdCount : Nat := 0
  types : List String := []
  imagesCount : Nat := 0
  missingAlt : Nat := 0
  ogCore : Nat := 0
  hreflangCount : Nat := 0
  hreflangXDefault : Bool := false
  formsInputs : Nat := 0
  formsUnlabeled : Nat := 0
  hasImpressumLink : Bool := false
  hasDatenschutzLink : Bool := false
deriving DecidableEq

/-- Label coverage of one form input: `aria-label`, `aria-labelledby`, a
`label[for=id]` query (built from the element's id — this dynamic selector
may itself throw), or an ancestor label. -/
def inputHasLabel (d : Dom) (e : El) : Except String Bool :=
  if ((attrOf e "aria-label").getD "") ≠ "" then .ok true
  else if ((attrOf e "aria-labelledby").getD "") ≠ "" then .ok true
  else
    match attrOf e "id" with
    | some id =>
      if id ≠ "" then
        match d.sel ("label[for=\"" ++ id ++ "\"]") with
        | .error er => .error er
        | .ok labs => .ok (decide (0 < labs.length) || e.hasLabelParent)
      else .ok e.hasLabelParent
    | none => .ok e.hasLabelParent

/-- The `inputs.forEach` loop counting unlabeled inputs. -/
def countUnlabeledList (d : Dom) : List El → Except String Nat
  | [] => .ok 0
  | e :: rest =>
    match inputHasLabel d e with
    | .error er => .error er
    | .ok has =>
      match countUnlabeledList d rest with
      | .error er => .error er
      | .ok n => .ok ((if has then 0 else 1) + n)

/-- The HTML branch of `lightweightSampleAnalyze` (everything after the
content-type check), with every cheerio query as an `Except` step in source
order.  Reaching the success record requires the malformed hreflang selector
to succeed. -/
def lightMain (env : LightEnv) (url : String) (res : HttpResp) :
    Except String LightResult := do
  let d := env.load res.body
  let titleEls ← d.sel "title"
  let title := strTrim ((titleEls.head?.map El.text).getD "")
  let metaEls ← d.sel "meta[name=\"description\"]"
  let metaDesc := (attrFirst metaEls "content").getD ""
  let canEls ← d.sel "link[rel=\"canonical\"]"
  let canonical := (attrFirst canEls "href").getD ""
  let robEls ← d.sel "meta[name=\"robots\"]"
  let robotsMeta := (attrFirst robEls "content").getD ""
  let htmlEls ← d.sel "html"
  let lang := (attrFirst htmlEls "lang").getD ""
  let h1Els ← d.sel "h1"
  let h2Els ← d.sel "h2"
  let bodyEls ← d.sel "body"
  let wordCount := countWords (joinSep "" (bodyEls.map El.text))
  let hEls ← d.sel "h1,h2,h3,h4,h5,h6"
  let orderIssues := headingOrderIssues (hEls.map elLevel)
  let hreflangEls ← d.sel hreflangSelector
  let hreflangCount := hreflangEls.length
  let hreflangXDefault := hreflangEls.any
    (fun el => decide (strToLower ((attrOf el "hreflang").getD "") = "x-default"))
  let inputs ← d.sel "input,select,textarea"
  let unlabeled ← countUnlabeledList d inputs
  let imgs ← d.sel "img"
  let missingAlt := (imgs.filter (fun el =>
      decide ((attrOf el "alt").getD "" = "") ||
        decide (strTrim ((attrOf el "alt").getD "") = ""))).length
  let scripts ← d.sel "script[type=\"application/ld+json\"]"
  let jsonLdBlocks := scripts.filterMap (fun el => (env.parseJson el.text).toOption)
  let types := collectTypesList jsonLdBlocks
  let ogT ← d.sel "meta[property=\"og:title\"]"
  let ogD ← d.sel "meta[property=\"og:description\"]"
  let ogI ← d.sel "meta[property=\"og:image\"]"
  let anchors ← d.sel "a[href]"
  let aHrefs := anchors.map (fun a => strToLower ((attrOf a "href").getD ""))
  pure {
    url := url, status := some res.status, ok := true, ct := some res.ct,
    titleLen := textLen title,
    metaDescLen := textLen metaDesc,
    canonical := decide (canonical ≠ ""),
    robots := robotsMeta,
    lang := decide (lang ≠ ""),
    h1Count := h1Els.length, h2Count := h2Els.length,
    wordCount := wordCount,
    orderIssues := orderIssues.length,
    jsonLdCount := jsonLdBlocks.length,
    types := types,
    imagesCount := imgs.length, missingAlt := missingAlt,
    ogCore := ogT.length + ogD.length + ogI.length,
    hreflangCount := hreflangCount, hreflangXDefault := hreflangXDefault,
    formsInputs := inputs.length, formsUnlabeled := unlabeled,
    hasImpressumLink := aHrefs.any (fun h => containsSub h "impressum"),
    hasDatenschutzLink :=
      aHrefs.any (fun h => containsSub h "datenschutz" || containsSub h "privacy") }

/-- `lightweightSampleAnalyze`: fetch; a non-ok response returns the `HTTP`
failure with its status, a non-HTML content type the `Non-HTML` failure; the
HTML branch runs `lightMain`, and any thrown step lands in the catch, which
returns the bare `{ url, ok: false, reason }` record. -/
def lightweightSampleAnalyze (env : LightEnv) (url : String) : LightResult :=
  match env.fetch url with
  | .error e => { url := url, ok := false, reason := some e }
  | .ok res =>
    if !(fetchOk res.status) then
      { url := url, status := some res.status, ok := false,
        reason := some "HTTP", ct := some res.ct }
    else if !(isHtmlCT res.ct) then
      { url := url, status := some res.status, ok := false,
        reason := some "Non-HTML", ct := some res.ct }
    else
      match lightMain env url res with
      | .ok r => r
      | .error e => { url := url, ok := false, reason := some e }

/-- Helper: a bind on an erroneous step is erroneous. -/
theorem bind_error_of_error {α β : Type} {x : Except String α}
    {f : α → Except String β} (h : ∃ e, x = Except.error e) :
    ∃ e, x >>= f = Except.error e := by
  rcases h with ⟨e, rfl⟩
  exact ⟨e, rfl⟩

/-- Helper: a bind whose continuation always errors is erroneous. -/
theorem bind_error_of_all {α β : Type} {x : Except String α}
    {f : α → Except String β} (h : ∀ a, ∃ e, f a = Except.error e) :
    ∃ e, x >>= f = Except.error e := by
  cases x with
  | error e => exact ⟨e, rfl⟩
  | ok a => exact h a

/-- Helper: whenever the CSS engine rejects the malformed hreflang selector,
the HTML branch of the light analyzer throws — regardless of what every other
query returns. -/
theorem lightMain_errors (env : LightEnv) (url : String) (res : HttpResp)
    (h : ∃ e, (env.load res.body).sel hreflangSelector = Except.error e) :
    ∃ e, lightMain env url res = Except.error e := by
  unfold lightMain
  apply bind_error_of_all; intro titleEls
  apply bind_error_of_all; intro metaEls
  apply bind_error_of_all; intro canEls
  apply bind_error_of_all; intro robEls
  apply bind_error_of_all; intro htmlEls
  apply bind_error_of_all; intro h1Els
  apply bind_error_of_all; intro h2Els
  apply bind_error_of_all; intro bodyEls
  apply bind_error_of_all; intro hEls
  exact bind_error_of_error h

/-- C7: the claim's failure half holds — a non-successful response yields the
structured `HTTP` failure with its status, a non-HTML response the `Non-HTML`
failure, neither contributing signals — but the success half does not: the
hreflang query at the heart of the signal set uses the malformed selector
`link[rel="alternate"][hreflang"]` (stray quote), so under any CSS engine
that rejects it the analyzer returns `ok = false` with the thrown message for
every URL, successful HTML responses included, and the reduced signal set is
unreachable. -/
theorem lightweightSampleAnalyze_selector_bug :
    (∀ (env : LightEnv) (url : String),
        (∀ b : String, ∃ e, (env.load b).sel hreflangSelector = Except.error e) →
        (lightweightSampleAnalyze env url).ok = false) ∧
    (∀ (env : LightEnv) (url : String) (res : HttpResp),
        env.fetch url = .ok res → fetchOk res.status = false →
        lightweightSampleAnalyze env url =
          { url := url, status := some res.status, ok := false,
            reason := some "HTTP", ct := some res.ct }) ∧
    (∀ (env : LightEnv) (url : String) (res : HttpResp),
        env.fetch url = .ok res → fetchOk res.status = true →
        isHtmlCT res.ct = false →
        lightweightSampleAnalyze env url =
          { url := url, status := some res.status, ok := false,
            reason := some "Non-HTML", ct := some res.ct }) := by
  refine ⟨?_, ?_, ?_⟩
  · intro env url hthrow
    unfold lightweightSampleAnalyze
    cases hf : env.fetch url with
    | error e => rfl
    | ok res =>
      by_cases hok : fetchOk res.status = true
      · by_cases hhtml : isHtmlCT res.ct = true
        · simp only [hok, hhtml, Bool.not_true, Bool.false_eq_true, if_false]
          obtain ⟨e, he⟩ := lightMain_errors env url res (hthrow res.body)
          rw [he]
        · have hh : isHtmlCT res.ct = false := by
            revert hhtml; cases isHtmlCT res.ct <;> simp
          simp [hok, hh]
      · have ho : fetchOk res.status = false := by
          revert hok; cases fetchOk res.status <;> simp
        simp [ho]
  · intro env url res hf hok
    unfold lightweightSampleAnalyze
    rw [hf]
    simp [hok]
  · intro env url res hf hok hhtml
    unfold lightweightSampleAnalyze
    rw [hf]
    simp [hok, hhtml]

/-- A CSS engine that accepts every selector (returning empty selections)
except the malformed hreflang selector, which it rejects — as cheerio's
selector parser does. -/
def c7Dom : Dom :=
  ⟨fun s => if s = hreflangSelector then .error "Malformed attribute selector"
            else .ok []⟩

/-- Environment serving a successful HTML response. -/
def c7Env : LightEnv :=
  { fetch := fun _ => .ok ⟨200, "text/html", "<html></html>"⟩,
    load := fun _ => c7Dom, parseJson := fun _ => .error "parse" }

/-- Environment serving a 404 HTML response. -/
def c7Env404 : LightEnv :=
  { fetch := fun _ => .ok ⟨404, "text/html", ""⟩,
    load := fun _ => c7Dom, parseJson := fun _ => .error "parse" }

/-- Environment serving a successful non-HTML response. -/
def c7EnvPdf : LightEnv :=
  { fetch := fun _ => .ok ⟨200, "application/pdf", ""⟩,
    load := fun _ => c7Dom, parseJson := fun _ => .error "parse" }

/-- Witness for C7 at concrete environments: a 200 text/html response still
comes back `ok = false`, and the two structured failures carry status and
reason. -/
theorem lightweightSampleAnalyze_selector_bug_witness :
    (lightweightSampleAnalyze c7Env "http://a.b/").ok = false ∧
    lightweightSampleAnalyze c7Env404 "http://a.b/" =
      { url := "http://a.b/", status := some 404, ok := false,
        reason := some "HTTP", ct := some "text/html" } ∧
    lightweightSampleAnalyze c7EnvPdf "http://a.b/" =
      { url := "http://a.b/", status := some 200, ok := false,
        reason := some "Non-HTML", ct := some "application/pdf" } :=
  ⟨lightweightSampleAnalyze_selector_bug.1 c7Env "http://a.b/"
      (fun b => ⟨"Malformed attribute selector", by simp [c7Env, c7Dom]⟩),
   lightweightSampleAnalyze_selector_bug.2.1 c7Env404 "http://a.b/"
      ⟨404, "text/html", ""⟩ rfl (by decide),
   lightweightSampleAnalyze_selector_bug.2.2 c7EnvPdf "http://a.b/"
      ⟨200, "application/pdf", ""⟩ rfl (by decide) (by decide)⟩

/-- An 8-column finding. -/
structure Finding where
  url : String
  category : String
  location : String
  status : String
  issue : String
  fix : String
  exampleCol : String
  impact : String
deriving DecidableEq

/-- `mkFinding` (`exampleCol` is the JS `example` column; impact is passed
explicitly at every call site the job runner reaches). -/
def mkFinding (url category location status issue fix exampleCol impact : String) :
    Finding :=
  ⟨url, category, location, status, issue, fix, exampleCol, impact⟩

/-- `findingsForQuickPage`: the light-page rule set.  A page that is not ok
yields at most the high-impact HTTP finding (when a numeric status outside
`[200,400)` is present) and nothing else; an ok page is run through the
looser light thresholds in source order. -/
def findingsForQuickPage (p : LightResult) : List Finding :=
  if p.ok = false then
    match p.status with
    | some st =>
      if st < 200 ∨ 400 ≤ st then
        [mkFinding p.url "Indexierung" "HTTP" "Fehler"
          ("HTTP-Status " ++ toString st) "2xx/3xx sicherstellen"
          "Server/Route prüfen" "hoch"]
      else []
    | none => []
  else
    (if p.titleLen < 50 ∨ 60 < p.titleLen then
      [mkFinding p.url "Onpage" "<title>" "Hinweis" "Title ideal 50–60 Zeichen"
        "präzise, klickstark formulieren" "<title>Keyword | Marke</title>" "niedrig"]
     else []) ++
    (if p.metaDescLen = 0 then
      [mkFinding p.url "Onpage" "<meta description>" "Warnung" "Description fehlt"
        "unique Description ergänzen"
        "<meta name=\x27description\x27 content=\x27…\x27>" "mittel"]
     else if p.metaDescLen < 140 ∨ 180 < p.metaDescLen then
      [mkFinding p.url "Onpage" "<meta description>" "Hinweis"
        "Description ideal 140–180 Zeichen" "kurz, unique, CTA"
        "<meta name=\x27description\x27 ...>" "niedrig"]
     else []) ++
    (if p.canonical = false then
      [mkFinding p.url "Technik/Indexierung" "<head>" "Warnung" "Canonical fehlt"
        "<link rel=\x27canonical\x27> setzen"
        "<link rel=\x27canonical\x27 href=\x27…\x27>" "mittel"]
     else []) ++
    (if containsSub (strToLower p.robots) "noindex" then
      [mkFinding p.url "Technik/Indexierung" "<meta robots>" "Fehler"
        "noindex gesetzt" "Indexierung erlauben"
        "<meta name=\x27robots\x27 content=\x27index,follow\x27>" "hoch"]
     else []) ++
    (if p.lang = false then
      [mkFinding p.url "Internationalisierung" "<html lang>" "Warnung"
        "Sprachangabe fehlt" "lang-Attribut setzen" "<html lang=\x27de\x27>" "niedrig"]
     else []) ++
    (if p.h1Count ≠ 1 then
      [mkFinding p.url "Struktur & Semantik" "Body" "Warnung"
        "Genau eine H1 je Seite empfohlen" "präzise H1 setzen"
        "<h1>Seitenfokus</h1>" "mittel"]
     else []) ++
    (if p.h2Count < 1 then
      [mkFinding p.url "Struktur & Semantik" "Body" "Hinweis"
        "Mindestens eine H2 sinnvoll" "Abschnitte strukturieren"
        "<h2>Abschnitt</h2>" "niedrig"]
     else []) ++
    (if 0 < p.orderIssues then
      [mkFinding p.url "Struktur & Semantik" "Headings" "Hinweis"
        "Überschriften-Sprünge" "hierarchisch gliedern" "H2→H3→H4…" "niedrig"]
     else []) ++
    (if p.wordCount < 200 then
      [mkFinding p.url "Content" "Body" "Warnung" "Sehr wenig Text (<200 Wörter)"
        "Informationsdichte erhöhen" "Antworten/FAQs integrieren" "mittel"]
     else []) ++
    (if p.jsonLdCount = 0 then
      [mkFinding p.url "Strukturierte Daten" "<head>" "Warnung"
        "Kein JSON-LD vorhanden" "passendes Schema.org ergänzen"
        "\x7b\"@context\":\"https://schema.org\",\"@type\":\"…\"\x7d" "mittel"]
     else []) ++
    (if p.ogCore = 0 then
      [mkFinding p.url "Social Preview" "OG" "Hinweis" "OpenGraph-Basis fehlt"
        "og:title/description/image setzen" "og:title …" "niedrig"]
     else []) ++
    (if 0 < p.hreflangCount ∧ p.hreflangXDefault = false then
      [mkFinding p.url "Internationalisierung" "<link rel=\x27alternate\x27>"
        "Hinweis" "x-default fehlt" "x-default ergänzen"
        "<link rel=\x27alternate\x27 hreflang=\x27x-default\x27 …>" "niedrig"]
     else []) ++
    (if 0 < p.formsInputs ∧ p.formsInputs < 2 * p.formsUnlabeled then
      [mkFinding p.url "Barrierefreiheit" "Formulare" "Hinweis"
        ">50% Inputs ohne Label/ARIA" "Beschriftungen ergänzen"
        "<label for=\x27…\x27>" "niedrig"]
     else []) ++
    (if p.hasImpressumLink = false then
      [mkFinding p.url "Recht" "Footer/Navi" "Hinweis"
        "Impressum-Link nicht gefunden" "sichtbar verlinken" "/impressum" "niedrig"]
     else []) ++
    (if p.hasDatenschutzLink = false then
      [mkFinding p.url "Recht" "Footer/Navi" "Hinweis"
        "Datenschutz-Link nicht gefunden" "sichtbar verlinken" "/datenschutz" "niedrig"]
     else [])

/-- JS `Math.round(100 * a / b)` on non-negative integers. -/
def jsRoundPct (a b : Nat) : Nat :=
  (2 * (100 * a) + b) / (2 * b)

/-- JS `Math.round(a / b)` for integer `a` and positive integer `b`
(half rounds toward positive infinity). -/
def jsRoundInt (a : Int) (b : Int) : Int :=
  Int.fdiv (2 * a + b) (2 * b)

/-- `/max-age=\d\x7b3,\x7d/` on the lowered cache-control header: the literal
`max-age=` followed by at least three digits. -/
def hasCachingCh : List Char → Bool
  | [] => false
  | c :: t =>
    (isPrefixCh "max-age=".data (c :: t) &&
      (match (c :: t).drop 8 with
       | a :: b :: d :: _ => a.isDigit && b.isDigit && d.isDigit
       | _ => false)) || hasCachingCh t

/-- The raw per-page signals of `analyzeSinglePage` that the job runner
consumes, as extracted by the rendered-analysis oracle (DOM/JSON-LD shape
checks that the claims do not quantify over are carried as Booleans); the
derived flags — indexability, threshold booleans, ratios — are computed below
exactly as the source computes them. -/
structure DeepPage where
  finalUrl : Url
  status : Nat
  contentType : String
  xRobotsTag : String
  cacheControl : String
  redirectChain : Nat
  title : String
  metaDescription : String
  lang : String
  canonical : String
  robotsMeta : String
  hreflangRaw : List String
  h1Count : Nat
  h2Count : Nat
  headingLevels : List Int
  imagesCount : Nat
  missingAlt : Nat
  lazyCount : Nat
  wordCount : Nat
  rawWords : Nat
  ogTitle : String
  ogDescription : String
  ogImage : String
  twitterCard : String
  twitterTitle : String
  twitterDescription : String
  jsonLdCount : Nat
  jsonLdInHead : Bool
  hasOrganization : Bool
  hasLocalBusiness : Bool
  hasWebsite : Bool
  hasSearchAction : Bool
  hasBreadcrumb : Bool
  hasFAQ : Bool
  hasArticle : Bool
  hasProduct : Bool
  localTelephone : Bool
  localAddress : Bool
  localHours : Bool
  productOffer : Bool
  productPrice : Bool
  productCurrency : Bool
  articleAuthor : Bool
  articleDatePublished : Bool
  bigImages : Nat
deriving DecidableEq

/-- The indexability formula of `analyzeSinglePage`: HTTP status in
`[200, 400)` and no `noindex` token in the robots meta tag nor in the
`X-Robots-Tag` header. -/
def computeIndexable (status : Nat) (robotsMeta xRobots : String) : Bool :=
  decide (200 ≤ status) && decide (status < 400) &&
    !(containsSub (strToLower robotsMeta) "noindex") &&
    !(containsSub (strToLower xRobots) "noindex")

/-- `flags.indexable` of a deep page. -/
def deepIndexable (d : DeepPage) : Bool :=
  computeIndexable d.status d.robotsMeta d.xRobotsTag

/-- `titleGood`: trimmed title length in `[30, 65]`. -/
def titleGoodOf (d : DeepPage) : Bool :=
  decide (30 ≤ textLen d.title) && decide (textLen d.title ≤ 65)

/-- `metaDescGood`: trimmed description length in `[80, 180]`. -/
def metaDescGoodOf (d : DeepPage) : Bool :=
  decide (80 ≤ textLen d.metaDescription) && decide (textLen d.metaDescription ≤ 180)

/-- `hOrderOk`: no heading-order issues. -/
def hOrderOkOf (d : DeepPage) : Bool :=
  decide ((headingOrderIssues d.headingLevels).length = 0)

/-- `missingAltRatio`. -/
def missingAltRatioOf (d : DeepPage) : ℚ :=
  if d.imagesCount = 0 then 0 else (d.missingAlt : ℚ) / (d.imagesCount : ℚ)

/-- `goodAltRatio`: vacuously true without images, else ratio at most 0.2. -/
def goodAltRatioOf (d : DeepPage) : Bool :=
  if d.imagesCount = 0 then true
  else decide ((d.missingAlt : ℚ) / (d.imagesCount : ℚ) ≤ 1 / 5)

/-- `lazyRatio`: rounded percentage of lazy-loading images. -/
def lazyRatioOf (d : DeepPage) : Nat :=
  if d.imagesCount = 0 then 0 else jsRoundPct d.lazyCount d.imagesCount

/-- `renderDeltaPct`: null without raw words, else the rounded percentage
delta between rendered and raw word count. -/
def renderDeltaPctOf (d : DeepPage) : Option Int :=
  if d.rawWords = 0 then none
  else some (jsRoundInt (100 * ((d.wordCount : Int) - (d.rawWords : Int))) (d.rawWords : Int))

/-- `ogOk`: some OpenGraph basis tag present. -/
def ogOkOf (d : DeepPage) : Bool :=
  decide (d.ogTitle ≠ "") || decide (d.ogDescription ≠ "") || decide (d.ogImage ≠ "")

/-- `ogComplete`: title, description and image all present. -/
def ogCompleteOf (d : DeepPage) : Bool :=
  decide (d.ogTitle ≠ "") && decide (d.ogDescription ≠ "") && decide (d.ogImage ≠ "")

/-- `twitterOk`: some Twitter card tag present. -/
def twitterOkOf (d : DeepPage) : Bool :=
  decide (d.twitterCard ≠ "") || decide (d.twitterTitle ≠ "") ||
    decide (d.twitterDescription ≠ "")

/-- `hreflangXDefault`: some hreflang value lower-cases to `x-default`. -/
def hreflangXDefaultOf (d : DeepPage) : Bool :=
  d.hreflangRaw.any (fun l => decide (strToLower l = "x-default"))

/-- Number of query parameters of `searchParams.toString()`. -/
def queryParamCount (u : Url) : Nat :=
  let q := if strStartsWith u.search "?" then String.mk u.search.data.tail else u.search
  ((strSplitOn q "&").filter (fun s => s ≠ "")).length

/-- URL cleanliness: pathname at most 120 characters, no uppercase character
in the pathname, at most 4 query parameters. -/
def urlCleanOf (u : Url) : Bool :=
  decide (u.path.data.length ≤ 120) && !(u.path.data.any (fun c => c.isUpper)) &&
    decide (queryParamCount u ≤ 4)

/-- `hasCaching`: a `max-age=` of at least three digits in the lowered
cache-control header. -/
def hasCachingOf (d : DeepPage) : Bool :=
  hasCachingCh (strToLower d.cacheControl).data

/-- The main page's score flags, with the post-sitemap patches applied
(`main.flags.robotsTxtFound = !!sm.robotsTxtFound` and likewise for
`sitemapFound`). -/
def toScoreFlags (d : DeepPage) (robotsTxtFound sitemapFound : Bool) : ScoreFlags :=
  { hasJSONLD := decide (0 < d.jsonLdCount),
    hasOrganization := d.hasOrganization,
    hasLocalBusiness := d.hasLocalBusiness,
    hasWebsite := d.hasWebsite,
    hasSearchAction := d.hasSearchAction,
    hasBreadcrumb := d.hasBreadcrumb,
    hasFAQ := d.hasFAQ,
    hasArticle := d.hasArticle,
    hasCanonical := decide (d.canonical ≠ ""),
    indexable := deepIndexable d,
    robotsTxtFound := robotsTxtFound,
    sitemapFound := sitemapFound,
    langSet := decide (d.lang ≠ ""),
    hOrderOk := hOrderOkOf d,
    redirectChain := d.redirectChain,
    hreflangCount := d.hreflangRaw.length,
    hreflangXDefault := hreflangXDefaultOf d,
    h1Count := d.h1Count,
    h2Count := d.h2Count,
    wordCount := d.wordCount,
    goodAltRatio := goodAltRatioOf d,
    metaDescGood := metaDescGoodOf d,
    titleGood := titleGoodOf d,
    ogOk := ogOkOf d,
    twitterOk := twitterOkOf d }

/-- The main-page issue list built at the end of `runJob`, in source order;
the only sitemap-derived entry is the broad-block warning at the end. -/
def mainIssues (m : DeepPage) (broadBlock : Bool) : List String :=
  (if deepIndexable m = false then
    ["Seite ist vermutlich nicht indexierbar (Status/robots)."] else []) ++
  (if 1 < m.redirectChain then
    ["Redirect-Kette vorhanden – bitte auflösen."] else []) ++
  (if m.canonical = "" then ["Canonical-Tag fehlt."] else []) ++
  (if m.jsonLdCount = 0 then ["Keine JSON-LD Daten gefunden."] else []) ++
  (if m.hasOrganization = false then ["Organization Schema fehlt."] else []) ++
  (if m.hasWebsite = false then ["WebSite Schema fehlt."] else []) ++
  (if m.hasSearchAction = false then
    ["SearchAction im WebSite Schema fehlt."] else []) ++
  (if m.lang = "" then ["<html lang> nicht gesetzt."] else []) ++
  (if m.h1Count ≠ 1 then
    ["H1-Anzahl ist " ++ toString m.h1Count ++ " (sollte 1 sein)."] else []) ++
  (if ogOkOf m = false then ["OpenGraph-Tags fehlen/unvollständig."] else []) ++
  (if ogCompleteOf m = false then
    ["OG: Titel/Beschreibung/Bild nicht komplett."] else []) ++
  (if 1 / 5 < missingAltRatioOf m then
    ["Zu viele Bilder ohne ALT-Text (>20%)."] else []) ++
  (if metaDescGoodOf m = false then
    ["Meta-Description fehlt/ist suboptimal (80–180)."] else []) ++
  (if titleGoodOf m = false then ["Title-Länge unideal (30–65)."] else []) ++
  (if hOrderOkOf m = false then ["Überschriften-Sprünge erkannt."] else []) ++
  (if urlCleanOf m.finalUrl = false then
    ["URL-Struktur evtl. unsauber (Länge/Parameter/Großbuchstaben)."] else []) ++
  (if hasCachingOf m = false then
    ["Caching-Header wirken schwach – Cache-Control prüfen."] else []) ++
  (if broadBlock then
    ["robots.txt blockiert breitflächig (Disallow: /) – prüfen."] else [])

/-- The deep-analysis rule set applied to each deep-analyzed secondary page
(lines of the `deepTargets` loop), in source order. -/
def findingsForDeepPage (u : String) (d : DeepPage) : List Finding :=
  (if deepIndexable d = false then
    [mkFinding u "Indexierung" "HTTP" "Fehler" "Nicht indexierbar (Status/robots)"
      "Status/robots prüfen" "X-Robots/META anpassen" "hoch"] else []) ++
  (if 1 < d.redirectChain then
    [mkFinding u "Technik/Indexierung" "HTTP" "Hinweis" "Redirect-Kette"
      "Weiterleitungen auflösen" "301 → Ziel direkt" "niedrig"] else []) ++
  (if d.canonical = "" then
    [mkFinding u "Technik/Indexierung" "<head>" "Warnung" "Canonical fehlt"
      "<link rel=\x27canonical\x27> setzen"
      "<link rel=\x27canonical\x27 href=\x27…\x27>" "mittel"] else []) ++
  (if d.jsonLdInHead = false then
    [mkFinding u "Strukturierte Daten" "<head>" "Hinweis" "JSON-LD nicht im <head>"
      "JSON-LD früh laden"
      "<script type=\x27application/ld+json\x27>…</script>" "niedrig"] else []) ++
  (if d.jsonLdCount = 0 then
    [mkFinding u "Strukturierte Daten" "<head>" "Warnung" "Kein JSON-LD"
      "Schema.org ergänzen"
      "\x7b\"@context\":\"https://schema.org\",\"@type\":\"…\"\x7d" "mittel"] else []) ++
  (if d.hasLocalBusiness then
    (if d.localTelephone = false ∨ d.localAddress = false then
      [mkFinding u "GEO/NAP" "JSON-LD" "Warnung" "NAP unvollständig (Tel/Adresse)"
        "telephone/address ergänzen"
        "\x7b\"@type\":\"LocalBusiness\",\"telephone\":\"…\",\"address\":\x7b…\x7d\x7d"
        "mittel"] else []) ++
    (if d.localHours = false then
      [mkFinding u "GEO/NAP" "JSON-LD" "Hinweis" "Öffnungszeiten fehlen"
        "openingHours ergänzen"
        "\x7b\"openingHours\":\"Mo-Fr 09:00-17:00\"\x7d" "niedrig"] else [])
   else []) ++
  (if d.hasProduct then
    (if d.productOffer = false ∨ d.productPrice = false ∨ d.productCurrency = false then
      [mkFinding u "Shop/Product" "JSON-LD" "Fehler" "Product ohne Preis/Währung"
        "Offer ergänzen"
        "\x7b\"@type\":\"Offer\",\"price\":\"…\",\"priceCurrency\":\"EUR\"\x7d"
        "hoch"] else [])
   else []) ++
  (if d.hasArticle then
    (if d.articleAuthor = false ∨ d.articleDatePublished = false then
      [mkFinding u "Content" "JSON-LD" "Hinweis" "Autor/Datum fehlen"
        "author/datePublished ergänzen"
        "\x7b\"author\":\"…\",\"datePublished\":\"YYYY-MM-DD\"\x7d" "niedrig"] else [])
   else []) ++
  (if 3 < d.bigImages then
    [mkFinding u "Performance" "Assets" "Hinweis" ">3 große Bilder (>500KB)"
      "Bilder komprimieren / WebP/AVIF" "<img src=\x27…webp\x27>" "niedrig"] else []) ++
  (if lazyRatioOf d < 50 ∧ 8 < d.imagesCount then
    [mkFinding u "Performance" "<img>" "Hinweis" "Wenig Lazy-Load"
      "loading=\"lazy\" ergänzen" "<img loading=\x27lazy\x27>" "niedrig"] else []) ++
  (match renderDeltaPctOf d with
   | some v =>
     if 50 < v then
      [mkFinding u "Rendering" "CSR" "Warnung" "Viele Inhalte erst clientseitig"
        "SSR/SSG bevorzugen" "Server-Rendering aktivieren" "mittel"] else []
   | none => [])

/-- The fixed candidate slugs of `probeCommonPaths`, each tried with and
without a trailing slash. -/
def commonPathSlugs : List String :=
  ["/geo", "/leistungen", "/service", "/kontakt", "/impressum", "/datenschutz",
   "/faq", "/standorte", "/ueber-uns", "/portfolio", "/cases", "/blog", "/news"]

/-- `probeCommonPaths`: light-analyze each candidate and keep, deduplicated,
those whose light analysis reports ok. -/
def probeCommonPaths (light : LightEnv) (origin : String) : List String :=
  let candidates := (commonPathSlugs.map (fun p => [p, p ++ "/"])).flatten
  setOf ((candidates.filter
    (fun p => (lightweightSampleAnalyze light (origin ++ p)).ok)).map
      (fun p => origin ++ p))

/-- The options `runJob` receives (validated request body). -/
structure JobOpts where
  seedSitemap : Bool
  sampleSitemap : Bool
  maxSamplePages : Nat
  crawl : Bool
  renderCrawl : Bool
  maxCrawlPages : Nat
  keepHashSections : Bool
  includeParams : Bool
  extraSeeds : List String
  includePatterns : List (String → Bool)
  excludePatterns : List (String → Bool)
  guessCommonPaths : Bool
  deepAnalyzeLimit : Nat

/-- Environment of one job run: the rendered-analysis oracle (`none` models
`analyzeSinglePage` returning its navigation-error object), the light
analyzer's environment, the sitemap fetch oracle, the robots.txt response,
the `new URL` parse oracle, and the crawl link extraction. -/
structure JobEnv where
  deep : String → Option DeepPage
  light : LightEnv
  sitemapDocs : List (String × SmDoc)
  robots : Option String
  parse : String → Option Url
  crawlNav : String → Option (List Url)

/-- The origin derived from the main page's final URL (`normOrigin`). -/
def runJobOrigin (env : JobEnv) (url : String) : String :=
  match env.deep url with
  | some m => urlOrigin m.finalUrl
  | none => ""

/-- Stage 2: sitemap expansion with cap `max(maxSamplePages, maxCrawlPages)`,
or the empty stub when sitemap seeding is disabled. -/
def runJobSm (env : JobEnv) (opts : JobOpts) (main : DeepPage) : SitemapResult :=
  if opts.seedSitemap then
    (getSitemapDeep env.sitemapDocs env.robots (urlOrigin main.finalUrl)
      (max opts.maxSamplePages opts.maxCrawlPages)).getD emptySitemapResult
  else emptySitemapResult

/-- Stage 3: manual seeds plus (optionally) the common-path guesses,
deduplicated. -/
def runJobManualSeeds (env : JobEnv) (opts : JobOpts) (main : DeepPage) :
    List String :=
  setOf (opts.extraSeeds ++
    (if opts.guessCommonPaths then
      probeCommonPaths env.light (urlOrigin main.finalUrl) else []))

/-- Stage 4a: the crawl, seeded with the manual seeds. -/
def runJobCrawl (env : JobEnv) (opts : JobOpts) (main : DeepPage) : List String :=
  if opts.crawl then
    crawlInternal ⟨env.parse, env.crawlNav⟩ main.finalUrl
      { maxPages := opts.maxCrawlPages, includeParams := opts.includeParams,
        render := opts.renderCrawl, keepHashSections := opts.keepHashSections,
        seeds := runJobManualSeeds env opts main,
        includePatterns := opts.includePatterns,
        excludePatterns := opts.excludePatterns }
  else []

/-- Stage 4b: the union of sitemap URLs, manual seeds and crawl output, in
insertion order. -/
def runJobAllUrls (env : JobEnv) (opts : JobOpts) (main : DeepPage) : List String :=
  setOf ((runJobSm env opts main).urls ++ runJobManualSeeds env opts main ++
    runJobCrawl env opts main)

/-- The findings accumulated over a list of light analyses, in page order. -/
def quickFindingsAll : List LightResult → List Finding
  | [] => []
  | p :: rest => findingsForQuickPage p ++ quickFindingsAll rest

/-- Stage 5a: light analyses of the sitemap sample. -/
def runJobSampleLights (env : JobEnv) (opts : JobOpts) (main : DeepPage) :
    List LightResult :=
  if opts.sampleSitemap ∧ (runJobSm env opts main).urls ≠ [] then
    ((runJobSm env opts main).urls.take opts.maxSamplePages).map
      (lightweightSampleAnalyze env.light)
  else []

/-- Stage 5b: light analyses of the first `min(maxCrawlPages, |allUrls|)`
discovered URLs. -/
def runJobCrawlLights (env : JobEnv) (opts : JobOpts) (main : DeepPage) :
    List LightResult :=
  ((runJobAllUrls env opts main).take
    (min opts.maxCrawlPages (runJobAllUrls env opts main).length)).map
    (lightweightSampleAnalyze env.light)

/-- Stage 6a: the deep-target filter
`allUrls.filter(u => u !== mainUrl && !ASSET_RE.test(new URL(u).pathname))`;
the `&&` short-circuit protects the main URL from the parse, while any other
unparseable entry throws (failing the job). -/
def deepTargetsFilter (parse : String → Option Url) (mainStr : String) :
    List String → Except String (List String)
  | [] => .ok []
  | u :: rest =>
    if u = mainStr then deepTargetsFilter parse mainStr rest
    else
      match parse u with
      | none => .error "Invalid URL"
      | some pu =>
        if assetRe pu.path then deepTargetsFilter parse mainStr rest
        else (deepTargetsFilter parse mainStr rest).map (fun l => u :: l)

/-- Stage 6a with the `deepAnalyzeLimit` slice applied. -/
def runJobDeepTargets (env : JobEnv) (opts : JobOpts) (main : DeepPage) :
    Except String (List String) :=
  (deepTargetsFilter env.parse (urlStr main.finalUrl)
    (runJobAllUrls env opts main)).map (fun l => l.take opts.deepAnalyzeLimit)

/-- Stage 6b: the deep-analysis loop; a navigation-error object makes the
subsequent `d.flags.indexable` access throw a TypeError that fails the job. -/
def deepFindingsLoop (env : JobEnv) : List String → Except String (List Finding)
  | [] => .ok []
  | u :: rest =>
    match env.deep u with
    | none => .error "Cannot read properties of undefined (reading \x27indexable\x27)"
    | some d =>
      match deepFindingsLoop env rest with
      | .error e => .error e
      | .ok fs => .ok (findingsForDeepPage u d ++ fs)

/-- All findings of the job, in source order: sitemap-sample findings, then
light findings over the discovered URLs, then deep findings. -/
def runJobFindings (env : JobEnv) (opts : JobOpts) (main : DeepPage) :
    Except String (List Finding) :=
  match runJobDeepTargets env opts main with
  | .error e => .error e
  | .ok targets =>
    match deepFindingsLoop env targets with
    | .error e => .error e
    | .ok deepFs =>
      .ok (quickFindingsAll (runJobSampleLights env opts main) ++
           quickFindingsAll (runJobCrawlLights env opts main) ++ deepFs)

/-- The job result (the fields of the stored `result` object; progress and
logs are side effects outside this model). -/
structure JobResult where
  requestedUrl : String
  mainFinalUrl : String
  mainStatus : Nat
  mainIndexable : Bool
  robotsFound : Bool
  disallow : List String
  broadBlock : Bool
  sitemapListedInRobots : Bool
  sitemapFound : Bool
  sitemapCandidates : List String
  sitemapFetched : List String
  sampleCount : Nat
  coveragePct : Option Nat
  discoveredCount : Nat
  pagesScanned : Nat
  orphanCandidates : List String
  sampledPages : List LightResult
  crawlCount : Nat
  crawlAnalyses : List LightResult
  findings : List Finding
  pagesWithIssues : Nat
  fehlerCount : Nat
  warnungCount : Nat
  hinweisCount : Nat
  issues : List String
  score : ScoreResult
deriving DecidableEq

/-- A placeholder job result (used only as the `getD` default in closed
statements about concrete runs). -/
def defaultJobResult : JobResult :=
  { requestedUrl := "", mainFinalUrl := "", mainStatus := 0, mainIndexable := false,
    robotsFound := false, disallow := [], broadBlock := false,
    sitemapListedInRobots := false, sitemapFound := false, sitemapCandidates := [],
    sitemapFetched := [], sampleCount := 0, coveragePct := none,
    discoveredCount := 0, pagesScanned := 0, orphanCandidates := [],
    sampledPages := [], crawlCount := 0, crawlAnalyses := [], findings := [],
    pagesWithIssues := 0, fehlerCount := 0, warnungCount := 0, hinweisCount := 0,
    issues := [], score := ⟨0, 0, 0, 0, 0⟩ }

/-- `runJob`: the pipeline run producing either the stored result or the
job-level error message.  A main-page navigation failure and any throw inside
the deep loop fail the job; everything else is assembled into the result. -/
def runJobModel (env : JobEnv) (url : String) (opts : JobOpts) :
    Except String JobResult :=
  match env.deep url with
  | none => .error "Navigation failed"
  | some main =>
    match runJobFindings env opts main with
    | .error e => .error e
    | .ok findings =>
      let sm := runJobSm env opts main
      let allUrls := runJobAllUrls env opts main
      let crawlList := runJobCrawl env opts main
      let sampleLights := runJobSampleLights env opts main
      let crawlLights := runJobCrawlLights env opts main
      let inSm := (allUrls.filter (fun u => decide (u ∈ sm.urls))).length
      .ok {
        requestedUrl := url,
        mainFinalUrl := urlStr main.finalUrl,
        mainStatus := main.status,
        mainIndexable := deepIndexable main,
        robotsFound := sm.robotsTxtFound,
        disallow := sm.disallow,
        broadBlock := sm.broadBlock,
        sitemapListedInRobots := sm.sitemapListedInRobots,
        sitemapFound := sm.sitemapFound,
        sitemapCandidates := sm.sitemapCandidates,
        sitemapFetched := sm.fetched,
        sampleCount := min opts.maxSamplePages sm.urls.length,
        coveragePct :=
          if allUrls.length = 0 then none
          else some (jsRoundPct inSm allUrls.length),
        discoveredCount := allUrls.length,
        pagesScanned := allUrls.length,
        orphanCandidates :=
          (sm.urls.filter (fun u => !(decide (u ∈ crawlList)))).take 50,
        sampledPages := sampleLights.filter (fun p => p.ok),
        crawlCount := (crawlLights.filter (fun p => p.ok)).length,
        crawlAnalyses := crawlLights.filter (fun p => p.ok),
        findings := findings,
        pagesWithIssues := (setOf (findings.map Finding.url)).length,
        fehlerCount := findings.countP (fun f => decide (f.status = "Fehler")),
        warnungCount := findings.countP (fun f => decide (f.status = "Warnung")),
        hinweisCount := findings.countP (fun f => decide (f.status = "Hinweis")),
        issues := mainIssues main sm.broadBlock,
        score := scoreFromFlags (toScoreFlags main sm.robotsTxtFound sm.sitemapFound) }

/-- A main page whose navigation returned HTTP 404 (all other signals at
their neutral values). -/
def c8Main404 : DeepPage :=
  { finalUrl := exStart, status := 404, contentType := "text/html",
    xRobotsTag := "", cacheControl := "", redirectChain := 0, title := "",
    metaDescription := "", lang := "", canonical := "", robotsMeta := "",
    hreflangRaw := [], h1Count := 0, h2Count := 0, headingLevels := [],
    imagesCount := 0, missingAlt := 0, lazyCount := 0, wordCount := 0,
    rawWords := 0, ogTitle := "", ogDescription := "", ogImage := "",
    twitterCard := "", twitterTitle := "", twitterDescription := "",
    jsonLdCount := 0, jsonLdInHead := false, hasOrganization := false,
    hasLocalBusiness := false, hasWebsite := false, hasSearchAction := false,
    hasBreadcrumb := false, hasFAQ := false, hasArticle := false,
    hasProduct := false, localTelephone := false, localAddress := false,
    localHours := false, productOffer := false, productPrice := false,
    productCurrency := false, articleAuthor := false,
    articleDatePublished := false, bigImages := 0 }

/-- Job environment for the 404 main page with every discovery source
disabled. -/
def c8Env : JobEnv :=
  { deep := fun u => if u = "http://a.b/" then some c8Main404 else none,
    light := c7Env404, sitemapDocs := [], robots := none,
    parse := fun _ => none, crawlNav := fun _ => none }

/-- Options disabling sitemap seeding, crawling and path guessing. -/
def c8Opts : JobOpts :=
  { seedSitemap := false, sampleSitemap := true, maxSamplePages := 10,
    crawl := false, renderCrawl := false, maxCrawlPages := 10,
    keepHashSections := true, includeParams := false, extraSeeds := [],
    includePatterns := [], excludePatterns := [], guessCommonPaths := false,
    deepAnalyzeLimit := 30 }

/-- C8 counterexample: a job whose main-page deep analysis returns HTTP 404
completes with `indexable = false` but with an empty findings list — no
Finding of severity `Fehler` for that page exists in the job result (the main
URL is excluded from the deep-target loop, and here it never enters the
light-analysis lists). -/
theorem runJob_404_no_finding_counterexample :
    ((runJobModel c8Env "http://a.b/" c8Opts).toOption.map
      (fun r => (r.mainStatus, r.mainIndexable,
        r.findings.countP (fun f => decide (f.status = "Fehler"))))) =
    some (404, false, 0) := by decide

/-- Helper: a fetch with a non-ok status short-circuits the light analyzer
into the structured `HTTP` failure. -/
theorem lightweight_http_fail (env : LightEnv) (url : String) (res : HttpResp)
    (hf : env.fetch url = .ok res) (hok : fetchOk res.status = false) :
    lightweightSampleAnalyze env url =
      { url := url, status := some res.status, ok := false,
        reason := some "HTTP", ct := some res.ct } := by
  unfold lightweightSampleAnalyze
  rw [hf]
  simp [hok]

/-- Helper: findings of a member page are findings of the accumulated list. -/
theorem quickFindingsAll_mem {p : LightResult} {lights : List LightResult}
    (hp : p ∈ lights) {f : Finding} (hf : f ∈ findingsForQuickPage p) :
    f ∈ quickFindingsAll lights := by
  induction lights with
  | nil => cases hp
  | cons q rest ih =>
    rcases List.mem_cons.mp hp with rfl | hp
    · exact List.mem_append.mpr (Or.inl hf)
    · exact List.mem_append.mpr (Or.inr (ih hp))

/-- C8 (amended): the indexability formula holds as stated — in particular a
404 main page always has `indexable = false` — but the `Fehler` Finding is
conditional: it is produced for the main page only when the main URL happens
to be light-analyzed again, i.e. when it falls within the first
`min(maxCrawlPages, |allUrls|)` discovered URLs and its light re-fetch also
returns the error status; with crawling disabled (or the main URL beyond that
slice) the job result contains no such Finding. -/
theorem indexable_404_and_conditional_finding :
    (∀ d : DeepPage, deepIndexable d = true ↔
        (200 ≤ d.status ∧ d.status < 400 ∧
         containsSub (strToLower d.robotsMeta) "noindex" = false ∧
         containsSub (strToLower d.xRobotsTag) "noindex" = false)) ∧
    (∀ d : DeepPage, d.status = 404 → deepIndexable d = false) ∧
    (∀ (env : JobEnv) (url : String) (opts : JobOpts) (r : JobResult)
        (main : DeepPage) (res : HttpResp),
        env.deep url = some main →
        runJobModel env url opts = .ok r →
        urlStr main.finalUrl ∈
          (runJobAllUrls env opts main).take
            (min opts.maxCrawlPages (runJobAllUrls env opts main).length) →
        env.light.fetch (urlStr main.finalUrl) = .ok res →
        (res.status < 200 ∨ 400 ≤ res.status) →
        ∃ f ∈ r.findings, f.status = "Fehler" ∧ f.url = urlStr main.finalUrl) := by
  refine ⟨?_, ?_, ?_⟩
  · intro d
    simp only [deepIndexable, computeIndexable, Bool.and_eq_true, decide_eq_true_eq,
      Bool.not_eq_true', and_assoc]
  · intro d h
    simp [deepIndexable, computeIndexable, h]
  · intro env url opts r main res hdeep hok hmem hfetch hrange
    have hfo : fetchOk res.status = false := by
      unfold fetchOk
      rcases hrange with h | h
      · have h2 : decide (200 ≤ res.status) = false := by
          simp only [decide_eq_false_iff_not]
          omega
        simp [h2]
      · have h2 : decide (res.status < 300) = false := by
          simp only [decide_eq_false_iff_not]
          omega
        simp [h2]
    have hlight := lightweight_http_fail env.light (urlStr main.finalUrl) res hfetch hfo
    have hqf : findingsForQuickPage
        (lightweightSampleAnalyze env.light (urlStr main.finalUrl)) =
        [mkFinding (urlStr main.finalUrl) "Indexierung" "HTTP" "Fehler"
          ("HTTP-Status " ++ toString res.status) "2xx/3xx sicherstellen"
          "Server/Route prüfen" "hoch"] := by
      rw [hlight]
      unfold findingsForQuickPage
      simp [hrange]
    unfold runJobModel at hok
    rw [hdeep] at hok
    dsimp only at hok
    cases hfs : runJobFindings env opts main with
    | error e => rw [hfs] at hok; cases hok
    | ok fs =>
      rw [hfs] at hok
      have hr : r.findings = fs := by cases hok; rfl
      unfold runJobFindings at hfs
      cases hdt : runJobDeepTargets env opts main with
      | error e => rw [hdt] at hfs; cases hfs
      | ok targets =>
        rw [hdt] at hfs
        dsimp only at hfs
        cases hdf : deepFindingsLoop env targets with
        | error e => rw [hdf] at hfs; cases hfs
        | ok deepFs =>
          rw [hdf] at hfs
          have hfs' : fs = quickFindingsAll (runJobSampleLights env opts main) ++
              quickFindingsAll (runJobCrawlLights env opts main) ++ deepFs := by
            cases hfs; rfl
          refine ⟨mkFinding (urlStr main.finalUrl) "Indexierung" "HTTP" "Fehler"
            ("HTTP-Status " ++ toString res.status) "2xx/3xx sicherstellen"
            "Server/Route prüfen" "hoch", ?_, rfl, rfl⟩
          rw [hr, hfs']
          refine List.mem_append.mpr (Or.inl (List.mem_append.mpr (Or.inr ?_)))
          refine quickFindingsAll_mem
            (List.mem_map_of_mem (lightweightSampleAnalyze env.light) hmem) ?_
          rw [hqf]
          exact List.mem_singleton.mpr rfl

/-- Job environment for the C8 witness: the 404 main page, a light layer whose
every fetch returns the same 404 text/html response, and no other discovery
sources. -/
def c8WitEnv : JobEnv :=
  { deep := fun u => if u = "http://a.b/" then some c8Main404 else none,
    light := { fetch := fun _ => .ok ⟨404, "text/html", ""⟩,
               load := fun _ => ⟨fun _ => .ok []⟩,
               parseJson := fun _ => .error "parse" },
    sitemapDocs := [], robots := none,
    parse := fun _ => none, crawlNav := fun _ => none }

/-- Options for the C8 witness: the main URL is supplied as an extra seed, so
it lands inside the light-analyzed slice of the discovered URLs. -/
def c8WitOpts : JobOpts :=
  { seedSitemap := false, sampleSitemap := false, maxSamplePages := 10,
    crawl := false, renderCrawl := false, maxCrawlPages := 10,
    keepHashSections := true, includeParams := false,
    extraSeeds := ["http://a.b/"], includePatterns := [],
    excludePatterns := [], guessCommonPaths := false, deepAnalyzeLimit := 30 }

/-- The job result the C8 witness run produces. -/
def c8WitResult : JobResult :=
  (runJobModel c8WitEnv "http://a.b/" c8WitOpts).toOption.getD defaultJobResult

/-- Witness for the amended C8 statement at a concrete job: the 404 main page
is not indexable, and because the main URL sits in the light-analyzed slice
here, the job result does carry a `Fehler` Finding for it. -/
theorem indexable_404_and_conditional_finding_witness :
    deepIndexable c8Main404 = false ∧
    (∃ f ∈ c8WitResult.findings,
      f.status = "Fehler" ∧ f.url = urlStr c8Main404.finalUrl) :=
  ⟨indexable_404_and_conditional_finding.2.1 c8Main404 rfl,
   indexable_404_and_conditional_finding.2.2 c8WitEnv "http://a.b/" c8WitOpts
     c8WitResult c8Main404 ⟨404, "text/html", ""⟩ rfl rfl (by decide) rfl
     (by decide)⟩

/-- Helper: when robots.txt parses to no `Sitemap:` line but a `Disallow:`
value trimming to `/`, `getSitemapDeep` succeeds with `broadBlock = true`,
the fallback candidate list `[origin/sitemap.xml]`, and — the cap permitting —
actually fetches the fallback candidate. -/
theorem getSitemapDeep_broadBlock (docs : List (String × SmDoc))
    (t origin : String) (cap : Nat)
    (hsm : (parseRobotsTxt t).sitemaps = [])
    (hdis : (parseRobotsTxt t).disallow.any
      (fun d => decide (strTrim d = "/")) = true)
    (hcap : 0 < cap) :
    ∃ res, getSitemapDeep docs (some t) origin cap = some res ∧
      res.broadBlock = true ∧
      res.sitemapCandidates = [origin ++ "/sitemap.xml"] ∧
      (origin ++ "/sitemap.xml") ∈ res.fetched := by
  have hcand : sitemapCandidates origin (parseRobotsTxt t) =
      [origin ++ "/sitemap.xml"] := by
    unfold sitemapCandidates
    rw [hsm]
    rfl
  have hfuel : smRunFuel docs [origin ++ "/sitemap.xml"] =
      (1 + totalChildCount docs) + 1 := by
    simp [smRunFuel]
  have hrun : (smRun docs cap ((1 + totalChildCount docs) + 1)
      ⟨[], [], []⟩ [origin ++ "/sitemap.xml"]).isSome := by
    apply smRun_isSome
    show ([origin ++ "/sitemap.xml"] : List String).length +
        smPotential docs [] ≤ (1 + totalChildCount docs) + 1
    rw [smPotential_nil_seen]
    simp only [List.length_cons, List.length_nil]
    omega
  obtain ⟨st, hst⟩ := Option.isSome_iff_exists.mp hrun
  refine ⟨{ robotsTxtFound := decide (t ≠ ""),
            sitemapFound := decide (0 < st.urls.length),
            sitemapCandidates := [origin ++ "/sitemap.xml"],
            urls := st.urls,
            disallow := (parseRobotsTxt t).disallow,
            broadBlock := (parseRobotsTxt t).disallow.any
              (fun d => decide (strTrim d = "/")),
            sitemapListedInRobots := !(parseRobotsTxt t).sitemaps.isEmpty,
            fetched := st.fetched }, ?_, hdis, rfl, ?_⟩
  · unfold getSitemapDeep
    dsimp only [Option.getD]
    rw [hcand, hfuel, hst]
  · exact smRun_head_fetched docs cap (1 + totalChildCount docs) ⟨[], [], []⟩
      (origin ++ "/sitemap.xml") [] st hst (by simp) hcap

/-- C6: for every job whose robots.txt oracle yields a text with a broad
`Disallow: /` (some Disallow value trims to `/`) and no `Sitemap:` line, and
whose options enable sitemap seeding with a positive cap, the job result has
`broadBlock = true`, a sitemap candidate list of exactly
`[origin/sitemap.xml]` whose fallback candidate was actually fetched, and the
issue string about the broad robots block in its main-page issue list. -/
theorem runJob_broadBlock_fallback_issue :
    ∀ (env : JobEnv) (url : String) (opts : JobOpts) (t : String)
      (main : DeepPage) (r : JobResult),
      env.deep url = some main →
      env.robots = some t →
      (parseRobotsTxt t).sitemaps = [] →
      (parseRobotsTxt t).disallow.any
        (fun d => decide (strTrim d = "/")) = true →
      opts.seedSitemap = true →
      0 < max opts.maxSamplePages opts.maxCrawlPages →
      runJobModel env url opts = .ok r →
      r.broadBlock = true ∧
      r.sitemapCandidates = [urlOrigin main.finalUrl ++ "/sitemap.xml"] ∧
      (urlOrigin main.finalUrl ++ "/sitemap.xml") ∈ r.sitemapFetched ∧
      "robots.txt blockiert breitflächig (Disallow: /) – prüfen." ∈
        r.issues := by
  intro env url opts t main r hdeep hro hsm hdis hseed hcap hok
  obtain ⟨res, hres, hbb, hcand, hfetch⟩ :=
    getSitemapDeep_broadBlock env.sitemapDocs t (urlOrigin main.finalUrl)
      (max opts.maxSamplePages opts.maxCrawlPages) hsm hdis hcap
  have hsmr : runJobSm env opts main = res := by
    unfold runJobSm
    rw [if_pos hseed, hro, hres]
    rfl
  unfold runJobModel at hok
  rw [hdeep] at hok
  dsimp only at hok
  cases hfs : runJobFindings env opts main with
  | error e => rw [hfs] at hok; cases hok
  | ok fs =>
    rw [hfs] at hok
    injection hok with hr
    subst hr
    refine ⟨?_, ?_, ?_, ?_⟩
    · show (runJobSm env opts main).broadBlock = true
      rw [hsmr]
      exact hbb
    · show (runJobSm env opts main).sitemapCandidates = _
      rw [hsmr]
      exact hcand
    · show _ ∈ (runJobSm env opts main).fetched
      rw [hsmr]
      exact hfetch
    · show _ ∈ mainIssues main (runJobSm env opts main).broadBlock
      rw [hsmr, hbb]
      simp [mainIssues]

/-- The robots.txt text of the C6 witness: a universal broad block and no
`Sitemap:` line. -/
def c6Robots : String := "User-agent: *\nDisallow: /"

/-- Job environment for the C6 witness: the robots.txt above, a sitemap
oracle knowing no documents (so the fallback fetch finds nothing), and no
other discovery sources. -/
def c6WitEnv : JobEnv :=
  { deep := fun u => if u = "http://a.b/" then some c8Main404 else none,
    light := { fetch := fun _ => .ok ⟨404, "text/html", ""⟩,
               load := fun _ => ⟨fun _ => .ok []⟩,
               parseJson := fun _ => .error "parse" },
    sitemapDocs := [], robots := some c6Robots,
    parse := fun _ => none, crawlNav := fun _ => none }

/-- Options for the C6 witness: sitemap seeding on, everything else off. -/
def c6WitOpts : JobOpts :=
  { seedSitemap := true, sampleSitemap := false, maxSamplePages := 5,
    crawl := false, renderCrawl := false, maxCrawlPages := 5,
    keepHashSections := true, includeParams := false, extraSeeds := [],
    includePatterns := [], excludePatterns := [], guessCommonPaths := false,
    deepAnalyzeLimit := 30 }

/-- The job result the C6 witness run produces. -/
def c6WitResult : JobResult :=
  (runJobModel c6WitEnv "http://a.b/" c6WitOpts).toOption.getD defaultJobResult

/-- Witness for C6 at a concrete job over the origin `http://a.b`: the broad
block is reported, the fallback candidate is the only one and is fetched, and
the issue string appears in the result. -/
theorem runJob_broadBlock_fallback_issue_witness :
    c6WitResult.broadBlock = true ∧
    c6WitResult.sitemapCandidates =
      [urlOrigin c8Main404.finalUrl ++ "/sitemap.xml"] ∧
    (urlOrigin c8Main404.finalUrl ++ "/sitemap.xml") ∈
      c6WitResult.sitemapFetched ∧
    "robots.txt blockiert breitflächig (Disallow: /) – prüfen." ∈
      c6WitResult.issues :=
  runJob_broadBlock_fallback_issue c6WitEnv "http://a.b/" c6WitOpts c6Robots
    c8Main404 c6WitResult rfl rfl (by decide) (by decide) rfl (by decide) rfl
